import Mathlib

/-!
Verification development for the db (entity persistence) package of the
ugorji/go-common repository: a shallow embedding of the type registry,
entity codec, key resolver and cache orchestrator, together with theorems
settling the specification claims.

Modelling conventions:
- Go machine integers are Lean Int with explicit range checks where the code
  checks overflow (reflect OverflowInt/OverflowUint).
- Go interface values are modelled by the inductive GVal, which carries the
  dynamic type tag, so that Go interface equality (which compares dynamic
  types first) is structural equality on GVal.
- A Go panic is modelled as Option.none.
- Go len(string) is the byte length, modelled by String.utf8ByteSize.
- Go maps keyed by strings / reflect types are modelled as association lists.
- The modelled fragment of field types covers the signed/unsigned integer
  kinds, string, bool, byte slices and slices of primitives; struct-, map-
  (expando) and tree-typed fields are outside the fragment (theorems that
  need the codec carry a hypothesis restricting field kinds).
-/

namespace Db

/-- Go (reflect) type of a field in the modelled fragment. -/
inductive GoTyp where
  | i8 | i16 | i32 | i64
  | u8 | u16 | u32 | u64
  | str | boolean
  | bytes
  | slice (elem : GoTyp)
deriving DecidableEq, Repr

/-- A primitive Go value (the element of a modelled slice), with its dynamic
type tag. -/
inductive PrimVal where
  | pInt (t : GoTyp) (n : Int)
  | pStr (s : String)
  | pBool (b : Bool)
deriving DecidableEq, Repr

/-- Go runtime (interface) value, carrying its dynamic type tag. Slices hold
primitive elements (slices of slices are outside the modelled fragment). -/
inductive GVal where
  | gInt (t : GoTyp) (n : Int)
  | gStr (s : String)
  | gBool (b : Bool)
  | gBytes (bs : List Int)
  | gSlice (t : GoTyp) (es : List PrimVal)
deriving DecidableEq, Repr

/-- View a primitive value as an interface value. -/
def PrimVal.toGVal : PrimVal → GVal
  | .pInt t n => .gInt t n
  | .pStr s => .gStr s
  | .pBool b => .gBool b

/-- Is this type one of the signed integer kinds? -/
def GoTyp.isSigned : GoTyp → Bool
  | .i8 | .i16 | .i32 | .i64 => true
  | _ => false

/-- Is this type one of the unsigned integer kinds? -/
def GoTyp.isUnsigned : GoTyp → Bool
  | .u8 | .u16 | .u32 | .u64 => true
  | _ => false

/-- Does an Int value fit the exact width and signedness of the type
(the check made by reflect OverflowInt / OverflowUint)? -/
def GoTyp.fits : GoTyp → Int → Bool
  | .i8, n => decide (-128 ≤ n ∧ n ≤ 127)
  | .i16, n => decide (-32768 ≤ n ∧ n ≤ 32767)
  | .i32, n => decide (-2147483648 ≤ n ∧ n ≤ 2147483647)
  | .i64, n => decide (-9223372036854775808 ≤ n ∧ n ≤ 9223372036854775807)
  | .u8, n => decide (0 ≤ n ∧ n ≤ 255)
  | .u16, n => decide (0 ≤ n ∧ n ≤ 65535)
  | .u32, n => decide (0 ≤ n ∧ n ≤ 4294967295)
  | .u64, n => decide (0 ≤ n ∧ n ≤ 18446744073709551615)
  | _, _ => false

/-- Go type name, as rendered by reflect.Type.String for the fragment. -/
def GoTyp.name : GoTyp → String
  | .i8 => "int8"
  | .i16 => "int16"
  | .i32 => "int32"
  | .i64 => "int64"
  | .u8 => "uint8"
  | .u16 => "uint16"
  | .u32 => "uint32"
  | .u64 => "uint64"
  | .str => "string"
  | .boolean => "bool"
  | .bytes => "[]uint8"
  | .slice e => "[]" ++ e.name

/-- The zero value of a type, as an interface value (reflect.Zero(t).Interface()). -/
def GoTyp.zeroInterface : GoTyp → GVal
  | .str => .gStr ""
  | .boolean => .gBool false
  | .bytes => .gBytes []
  | .slice e => .gSlice e []
  | t => .gInt t 0

/-- Element type used by fvc: fm.ReflectType, or its Elem() when it is a slice
(the element type of a byte slice is uint8). -/
def GoTyp.elemType : GoTyp → GoTyp
  | .slice e => e
  | .bytes => .u8
  | t => t

/-- reflect.Value.String(): the string for string values, and the
placeholder text for every other kind (Go never panics here). -/
def goValString : GVal → String
  | .gStr s => s
  | .gInt t _ => "<" ++ t.name ++ " Value>"
  | .gBool _ => "<bool Value>"
  | .gBytes _ => "<[]uint8 Value>"
  | .gSlice t _ => "<" ++ (GoTyp.slice t).name ++ " Value>"

/-- reflect.Value.Int(): defined only on signed integer kinds (else Go panics). -/
def goValInt : GVal → Option Int
  | .gInt t n => if t.isSigned then some n else none
  | _ => none

/-- reflect.Value.Uint(): defined only on unsigned integer kinds (else Go panics). -/
def goValUint : GVal → Option Int
  | .gInt t n => if t.isUnsigned then some n else none
  | _ => none

/-- Well-typedness of a primitive value at a declared element type. -/
def wellTypedPrim : GoTyp → PrimVal → Prop
  | t, .pInt t' n => t' = t ∧ (t.isSigned ∨ t.isUnsigned) ∧ t.fits n = true
  | .str, .pStr _ => True
  | .boolean, .pBool _ => True
  | _, _ => False

/-- Well-typedness of a value at a declared field type: the dynamic tag is the
declared type and integer values are in range. -/
def wellTyped : GoTyp → GVal → Prop
  | t, .gInt t' n => t' = t ∧ (t.isSigned ∨ t.isUnsigned) ∧ t.fits n = true
  | .str, .gStr _ => True
  | .boolean, .gBool _ => True
  | .bytes, .gBytes bs => ∀ b ∈ bs, 0 ≤ b ∧ b ≤ 255
  | .slice e, .gSlice e' es => e' = e ∧ ∀ v ∈ es, wellTypedPrim e v
  | _, _ => False

/-- FieldValueChecker constants (source: ALWAYS_FVC etc). -/
inductive FieldValueChecker where
  | ALWAYS_FVC | NOT_ALWAYS_FVC | EMPTY_FVC | NOT_EMPTY_FVC
deriving DecidableEq, Repr

/-- FieldType constants (source: STRUC_FTYPE etc). -/
inductive FieldType where
  | STRUC_FTYPE | MARSHAL_FTYPE | EXPANDO_FTYPE | ITREE_FTYPE | REGULAR_FTYPE
deriving DecidableEq, Repr

/-- Holds information about a struct field (source: DbFieldMeta; the source
field Type is called Typ here because Type is reserved in Lean). -/
structure DbFieldMeta where
  Store : List FieldValueChecker
  Index : List FieldValueChecker
  Typ : FieldType
  FieldName : String
  DbName : String
  ReflectType : GoTyp
deriving DecidableEq, Repr

/-- The emptiness test in fvc's EMPTY_FVC branch: kinds with a length compare
the length with 0, every other kind compares (by interface equality) with the
zero value of fmElemType. -/
def isEmptyVal (fmElemType : GoTyp) : GVal → Bool
  | .gStr s => s.utf8ByteSize == 0
  | .gBytes bs => bs.length == 0
  | .gSlice _ es => es.length == 0
  | v => v == fmElemType.zeroInterface

/-- One step of the fvc checker loop (the inv/fallthrough structure of the
source collapses to: NOT_x is the negation of x). -/
def fvcCheckOne (fmElemType : GoTyp) (val : GVal) : FieldValueChecker → Bool
  | .ALWAYS_FVC => true
  | .NOT_ALWAYS_FVC => false
  | .EMPTY_FVC => isEmptyVal fmElemType val
  | .NOT_EMPTY_FVC => !(isEmptyVal fmElemType val)

/-- The two legal first arguments of fvc (source uses the chars s and i and
panics on anything else). -/
inductive FvcWhat where
  | store | index
deriving DecidableEq, Repr

/-- Check if we should store/index this value (source: fvc). When index
checking, byte slices and strings longer than 500 bytes are rejected before
the checker list is consulted. The checker loop keeps b true while every
checker passes, stopping at the first failure (List.all). -/
def fvc (what : FvcWhat) (val : GVal) (fm : DbFieldMeta) : Bool :=
  match what with
  | .store => fm.Store.all (fvcCheckOne fm.ReflectType.elemType val)
  | .index =>
    match val with
    | .gBytes _ => false
    | .gStr s => if s.utf8ByteSize > 500 then false
        else fm.Index.all (fvcCheckOne fm.ReflectType.elemType val)
    | _ => fm.Index.all (fvcCheckOne fm.ReflectType.elemType val)

/-- A datastore property (source: Property). -/
structure Property where
  Name : String
  Value : GVal
  NoIndex : Bool
  Multiple : Bool
deriving DecidableEq, Repr

/-- An ordered property list (source: PropertyList). -/
abbrev PropertyList := List Property

/-- Normalization performed by addToPropList before appending: signed integer
kinds become int64 with the same value, unsigned kinds become int64 by the Go
conversion int64(uint64(v)) which wraps values at 2^63, and every other kind
is kept as is (floats are outside the fragment). -/
def normalizeVal : GVal → GVal
  | .gInt t n =>
    if t.isSigned then .gInt .i64 n
    else if t.isUnsigned then
      .gInt .i64 (if n ≥ 9223372036854775808 then n - 18446744073709551616 else n)
    else .gInt t n
  | v => v

/-- The non-expanding tail of addToPropList: normalize the value, run the
index check, and append the Property (or skip it when only indexed properties
are requested and this one is not indexed). -/
def addToPropListLeaf (m : PropertyList) (name : String) (val : GVal)
    (indexesOnly : Bool) (isSlice : Bool) (fm : DbFieldMeta) : PropertyList :=
  let val' := normalizeVal val
  let indx := fvc .index val' fm
  if !indexesOnly || indx then
    m ++ [{ Name := name, Value := val', NoIndex := !indx, Multiple := isSlice }]
  else m

/-- Source addToPropList: when the passed reflect value is valid and of slice
or array kind, recurse over the elements (with an invalid reflect value, so
the recursion takes the non-expanding branch, here inlined as
addToPropListLeaf); otherwise take the non-expanding branch directly. -/
def addToPropList (m : PropertyList) (name : String) (val : GVal)
    (indexesOnly : Bool) (fvValid : Bool) (isSlice : Bool) (fm : DbFieldMeta) :
    PropertyList :=
  if fvValid then
    match val with
    | .gSlice _ es =>
      es.foldl (fun acc e =>
        addToPropListLeaf acc name e.toGVal indexesOnly true fm) m
    | .gBytes bs =>
      bs.foldl (fun acc b =>
        addToPropListLeaf acc name (.gInt .u8 b) indexesOnly true fm) m
    | _ => addToPropListLeaf m name val indexesOnly isSlice fm
  else addToPropListLeaf m name val indexesOnly isSlice fm

/-- Source ormSetVal: write a property value into a field of the given
declared type, returning the value now held by the field; none models the Go
panic (explicit overflow panic, reflect kind panic in Int/Uint/Bool, or a
non-assignable Set in the default branch). -/
def ormSetVal (t : GoTyp) (val : GVal) : Option GVal :=
  match t with
  | .i8 | .i16 | .i32 | .i64 =>
    match goValInt val with
    | some n => if t.fits n then some (.gInt t n) else none
    | none => none
  | .u8 | .u16 | .u32 | .u64 =>
    match goValUint val with
    | some n => if t.fits n then some (.gInt t n) else none
    | none => none
  | .str => some (.gStr (goValString val))
  | .boolean =>
    match val with
    | .gBool b => some (.gBool b)
    | _ => none
  | .bytes =>
    match val with
    | .gBytes bs => some (.gBytes bs)
    | _ => none
  | .slice e =>
    match val with
    | .gSlice e' es => if e' = e then some (.gSlice e' es) else none
    | _ => none

/-- Errors of the db package and its zerror collaborator. -/
inductive GoError where
  | entityNotFound (msg : String)
  | rich (action : String) (cause : Option GoError)
  | multi (errs : List (Option GoError))
  | errorStr (msg : String)

/-- zerror.Base: unwrap Rich causes. -/
def goErrBase : Option GoError → Option GoError
  | some (.rich _ (some c)) => goErrBase (some c)
  | e => e

mutual
/-- Source IsNotFoundError: true for EntityNotFoundError, and for a non-empty
Multi all of whose elements are themselves not-found; false otherwise (also
for nil and for Rich wrappers, which match neither case of the type switch). -/
def IsNotFoundError : Option GoError → Bool
  | none => false
  | some e => isNotFoundErrCase e

/-- The type-switch body of IsNotFoundError. -/
def isNotFoundErrCase : GoError → Bool
  | .entityNotFound _ => true
  | .multi [] => false
  | .multi (e :: es) => IsNotFoundError e && isNotFoundAll es
  | _ => false

/-- The all-elements loop of IsNotFoundError's Multi case. -/
def isNotFoundAll : List (Option GoError) → Bool
  | [] => true
  | e :: es => IsNotFoundError e && isNotFoundAll es
end

/-- A struct field as seen by reflection: name, raw db tag value (none when
absent) and reflect type. Anonymous (embedded) fields are outside the
modelled fragment. -/
structure GoField where
  name : String
  tag : Option String
  typ : GoTyp
deriving DecidableEq, Repr

/-- A struct type as seen by reflection: its name (standing in for reflect
type identity), the db tag of its _struct field (none when the field or the
tag is absent) and its remaining fields. -/
structure GoStructType where
  name : String
  structTag : Option String
  fields : List GoField
deriving DecidableEq, Repr

/-- Is the first list of characters a leading fragment of the second?
(Structural stand-in for the library string primitives, so that proofs can
evaluate by kernel reduction.) -/
def charsPfx : List Char → List Char → Bool
  | [], _ => true
  | _, [] => false
  | a :: as, b :: bs => a == b && charsPfx as bs

/-- Go strings.HasPrefix s pre. -/
def goHasPfx (s pre : String) : Bool := charsPfx pre.data s.data

/-- Go strings.HasSuffix s sfx. -/
def goHasSfx (s sfx : String) : Bool := charsPfx sfx.data.reverse s.data.reverse

/-- The accumulator loop of goSplit. -/
def goSplitAux (sep : Char) : List Char → List Char → List String
  | [], acc => [String.mk acc.reverse]
  | c :: cs, acc =>
    if c == sep then String.mk acc.reverse :: goSplitAux sep cs []
    else goSplitAux sep cs (c :: acc)

/-- Go strings.Split s (String.mk [sep]) for a one-character separator. -/
def goSplit (s : String) (sep : Char) : List String := goSplitAux sep s.data []

/-- The digits of a decimal numeral folded into a Nat. -/
def goDigitsToNat (cs : List Char) : Nat :=
  cs.foldl (fun n c => n * 10 + (c.toNat - 48)) 0

/-- A decimal parse: all digits and non-empty, else none (the error of Go
strconv on this fragment). -/
def goStrToNat (s : String) : Option Nat :=
  if s.data ≠ [] ∧ s.data.all (fun c => c.isDigit) then some (goDigitsToNat s.data)
  else none

/-- Source getStructTagValue: the db tag split on commas, nil when empty. -/
def getStructTagValue (tag : Option String) : Option (List String) :=
  match tag with
  | none => none
  | some s => if s == "" then none else some (goSplit s ',')

/-- Source bValue: strconv.ParseBool, with parse errors mapped to false. -/
def bValue (s : String) : Bool :=
  s == "1" || s == "t" || s == "T" || s == "TRUE" || s == "true" || s == "True"

/-- time.ParseDuration on the fragment of duration strings used by the tag
mini-language: a decimal count followed by one unit, producing nanoseconds. -/
def parseGoDuration (s : String) : Except String Nat :=
  if s == "0" then .ok 0
  else
    match [("ns", 1), ("us", 1000), ("ms", 1000000), ("s", 1000000000),
           ("m", 60000000000), ("h", 3600000000000)].find?
             (fun u => goHasSfx s u.1) with
    | some (u, mult) =>
      let ds := s.dropRight u.length
      if ds.isEmpty then .error ("time: invalid duration " ++ s)
      else
        match goStrToNat ds with
        | some n => .ok (n * mult)
        | none => .error ("time: invalid duration " ++ s)
    | none => .error ("time: invalid duration " ++ s)

/-- strconv.ParseUint(s, 10, 8). -/
def parseUint8 (s : String) : Except String Nat :=
  match goStrToNat s with
  | some n => if n ≤ 255 then .ok n else .error ("value out of range: " ++ s)
  | none => .error ("invalid syntax: " ++ s)

/-- Holds information about the struct (source: TypeMeta; the source field
Type is called Typ here because Type is reserved in Lean). Timeouts are in
nanoseconds. -/
structure TypeMeta where
  Typ : GoStructType
  ParentKeyField : String
  ParentKind : String
  ParentShape : String
  ParentShapeField : String
  KeyField : String
  Kind : String
  KindId : Nat
  Shape : String
  ShapeId : Nat
  ShapeField : String
  Pinned : Bool
  AutoHooks : Bool
  UseRequestCache : Bool
  UseInstanceCache : Bool
  UseSharedCache : Bool
  UseDatastore : Bool
  SharedCacheTimeout : Nat
  InstanceCacheTimeout : Nat
  DbFields : List (String × DbFieldMeta)
deriving DecidableEq, Repr

/-- Source NewTypeMeta followed by tm.Type = rt: request cache, shared cache
and datastore on, ten-minute timeouts, everything else zero-valued. -/
def NewTypeMeta (rt : GoStructType) : TypeMeta where
  Typ := rt
  ParentKeyField := ""
  ParentKind := ""
  ParentShape := ""
  ParentShapeField := ""
  KeyField := ""
  Kind := ""
  KindId := 0
  Shape := ""
  ShapeId := 0
  ShapeField := ""
  Pinned := false
  AutoHooks := false
  UseRequestCache := true
  UseInstanceCache := false
  UseSharedCache := true
  UseDatastore := true
  SharedCacheTimeout := 600000000000
  InstanceCacheTimeout := 600000000000
  DbFields := []

/-- One token of the _struct tag applied to a TypeMeta: first the switch of
exact matches, then the switch of key=value matches (source:
addStructMetaFromTypeForStructInfo loop body). -/
def applyStructInfoToken (tm : TypeMeta) (tok : String) : Except String TypeMeta :=
  let tm :=
    if tok == "auto" then { tm with AutoHooks := true }
    else if tok == "rc" then { tm with UseRequestCache := true }
    else if tok == "pc" then { tm with UseInstanceCache := true }
    else if tok == "mc" then { tm with UseSharedCache := true }
    else if tok == "ds" then { tm with UseDatastore := true }
    else if tok == "pinned" then { tm with Pinned := true }
    else tm
  if goHasPfx tok "auto=" then .ok { tm with AutoHooks := bValue (tok.drop 5) }
  else if goHasPfx tok "rc=" then .ok { tm with UseRequestCache := bValue (tok.drop 3) }
  else if goHasPfx tok "pc=" then .ok { tm with UseInstanceCache := bValue (tok.drop 3) }
  else if goHasPfx tok "mc=" then .ok { tm with UseSharedCache := bValue (tok.drop 3) }
  else if goHasPfx tok "ds=" then .ok { tm with UseDatastore := bValue (tok.drop 3) }
  else if goHasPfx tok "pinned=" then .ok { tm with Pinned := bValue (tok.drop 7) }
  else if goHasPfx tok "pcto=" then
    (parseGoDuration (tok.drop 5)).map (fun d => { tm with InstanceCacheTimeout := d })
  else if goHasPfx tok "mcto=" then
    (parseGoDuration (tok.drop 5)).map (fun d => { tm with SharedCacheTimeout := d })
  else if goHasPfx tok "keyf=" then .ok { tm with KeyField := tok.drop 5 }
  else if goHasPfx tok "kind=" then .ok { tm with Kind := tok.drop 5 }
  else if goHasPfx tok "kindid=" then
    (parseUint8 (tok.drop 7)).map (fun d => { tm with KindId := d })
  else if goHasPfx tok "shapeid=" then
    (parseUint8 (tok.drop 8)).map (fun d => { tm with ShapeId := d })
  else if goHasPfx tok "shape=" then .ok { tm with Shape := tok.drop 6 }
  else if goHasPfx tok "shapef=" then .ok { tm with ShapeField := tok.drop 7 }
  else if goHasPfx tok "pkeyf=" then .ok { tm with ParentKeyField := tok.drop 6 }
  else if goHasPfx tok "pkind=" then .ok { tm with ParentKind := tok.drop 6 }
  else if goHasPfx tok "pshape=" then .ok { tm with ParentShape := tok.drop 7 }
  else if goHasPfx tok "pshapef=" then .ok { tm with ParentShapeField := tok.drop 8 }
  else .ok tm

/-- Source addStructMetaFromTypeForStructInfo: fold the _struct tag tokens
over the TypeMeta, stopping at the first parse error. -/
def addStructMetaFromTypeForStructInfo (rt : GoStructType) (tm : TypeMeta) :
    Except String TypeMeta :=
  match getStructTagValue rt.structTag with
  | none => .ok tm
  | some stv => stv.foldlM applyStructInfoToken tm

/-- Source appendFVC: append the checkers named by a |-separated list. -/
def appendFVC (s : String) (fvca : List FieldValueChecker) : List FieldValueChecker :=
  (goSplit s '|').foldl
    (fun acc s2 =>
      if s2 == "y" then acc ++ [.ALWAYS_FVC]
      else if s2 == "!y" then acc ++ [.NOT_ALWAYS_FVC]
      else if s2 == "z" then acc ++ [.EMPTY_FVC]
      else if s2 == "!z" then acc ++ [.NOT_EMPTY_FVC]
      else acc) fvca

/-- One token of a field tag applied to a DbFieldMeta (source:
addStructMetaFromType inner loop body). -/
def applyFieldToken (fm : DbFieldMeta) (tok : String) : DbFieldMeta :=
  if goHasPfx tok "dbname=" then { fm with DbName := tok.drop 7 }
  else if goHasPfx tok "ftype=" then
    if tok.drop 6 == "struc" then { fm with Typ := .STRUC_FTYPE }
    else if tok.drop 6 == "marshal" then { fm with Typ := .MARSHAL_FTYPE }
    else if tok.drop 6 == "expando" then { fm with Typ := .EXPANDO_FTYPE }
    else if tok.drop 6 == "tree" then { fm with Typ := .ITREE_FTYPE }
    else fm
  else if goHasPfx tok "store=" then { fm with Store := appendFVC (tok.drop 6) fm.Store }
  else if goHasPfx tok "index=" then { fm with Index := appendFVC (tok.drop 6) fm.Index }
  else fm

/-- The DbFieldMeta built for one tagged field: NewDbFieldMeta defaults, the
field tag tokens folded in, then the not-empty defaults for an empty Store or
Index list (source: addStructMetaFromType per-field body, minus the
duplicate-dbname check). -/
def buildFieldMeta (sf : GoField) (stv : List String) : DbFieldMeta :=
  let fm : DbFieldMeta :=
    { Store := [], Index := [], Typ := .REGULAR_FTYPE,
      FieldName := sf.name, DbName := sf.name, ReflectType := sf.typ }
  let fm := stv.foldl applyFieldToken fm
  let fm := if fm.Index.isEmpty then { fm with Index := [.NOT_EMPTY_FVC] } else fm
  let fm := if fm.Store.isEmpty then { fm with Store := [.NOT_EMPTY_FVC] } else fm
  fm

/-- Source addStructMetaFromType: build a DbFieldMeta for every db-tagged
field, rejecting duplicate db names. The _struct field and anonymous fields
do not appear in the modelled field list. -/
def addStructMetaFromType (rt : GoStructType) (tm : TypeMeta) :
    Except String TypeMeta :=
  rt.fields.foldlM
    (fun tm sf =>
      match getStructTagValue sf.tag with
      | none => .ok tm
      | some stv =>
        let fm := buildFieldMeta sf stv
        if tm.DbFields.any (fun p => p.2.DbName == fm.DbName) then
          .error ("Error binding dbname: " ++ fm.DbName ++ ". Already bound.")
        else .ok { tm with DbFields := tm.DbFields ++ [(sf.name, fm)] })
    tm

/-- NewTypeMeta plus both tag-parsing passes: everything
GetStructMetaFromType does on a cache miss before touching the registry. -/
def buildTypeMeta (rt : GoStructType) : Except String TypeMeta := do
  let tm := NewTypeMeta rt
  let tm ← addStructMetaFromTypeForStructInfo rt tm
  addStructMetaFromType rt tm

/-- Source getStructMetaKindKey. -/
def getStructMetaKindKey (kind shape : String) : String :=
  if shape != "" then kind ++ ":" ++ shape else kind

/-- The package-level registry state: StructMetas maps a type to its
TypeMeta, StructMetaKinds maps a kind key to a type. parseCount is a ghost
counter recording how many times tags were parsed (a build was run). -/
structure Registry where
  StructMetas : List (GoStructType × TypeMeta)
  StructMetaKinds : List (String × GoStructType)
  parseCount : Nat
deriving DecidableEq, Repr

/-- The empty registry. -/
def Registry.empty : Registry := { StructMetas := [], StructMetaKinds := [], parseCount := 0 }

/-- Source GetStructMetaFromType: return the cached TypeMeta when present;
otherwise parse the tags, and when the parsed Kind is non-empty either
reject a duplicate (Kind, Shape) registration or record the new type in both
maps. A type whose parsed Kind is empty is never recorded. -/
def GetStructMetaFromType (reg : Registry) (rt : GoStructType) :
    Except String TypeMeta × Registry :=
  match (reg.StructMetas.find? (fun p => p.1 == rt)).map (fun p => p.2) with
  | some tm => (.ok tm, reg)
  | none =>
    let reg := { reg with parseCount := reg.parseCount + 1 }
    match buildTypeMeta rt with
    | .error e => (.error e, reg)
    | .ok tm =>
      if tm.Kind ≠ "" then
        let smkKey := getStructMetaKindKey tm.Kind tm.Shape
        match reg.StructMetaKinds.find? (fun p => p.1 == smkKey) with
        | some _ =>
          (.error ("Error registering for kind: " ++ tm.Kind ++ ", shape: " ++
            tm.Shape ++ ". Type already registered."), reg)
        | none =>
          (.ok tm,
           { reg with
             StructMetaKinds := (smkKey, rt) :: reg.StructMetaKinds,
             StructMetas := (rt, tm) :: reg.StructMetas })
      else (.ok tm, reg)

/-- Source GetLoadedStructMetaFromKind: kind key to type to TypeMeta. -/
def GetLoadedStructMetaFromKind (reg : Registry) (kind shape : String) :
    Option TypeMeta :=
  match reg.StructMetaKinds.find? (fun p => p.1 == getStructMetaKindKey kind shape) with
  | some (_, rt) => (reg.StructMetas.find? (fun p => p.1 == rt)).map (fun p => p.2)
  | none => none

/-- A datastore key with at most one level of ancestor (the package supports
exactly one level; a parent passed to mkAppKey contributes only its own
kind/shape/id). -/
inductive AppKey where
  | root (kind shape : String) (id : Int)
  | child (kind shape : String) (id : Int) (pkind pshape : String) (pid : Int)
deriving DecidableEq, Repr

/-- The kind encoded in a key (GetInfoFromKey, first component). -/
def AppKey.kind : AppKey → String
  | .root k _ _ => k
  | .child k _ _ _ _ _ => k

/-- The shape encoded in a key (GetInfoFromKey, second component). -/
def AppKey.shape : AppKey → String
  | .root _ s _ => s
  | .child _ s _ _ _ _ => s

/-- Source app.Key.EntityId. -/
def AppKey.EntityId : AppKey → Int
  | .root _ _ i => i
  | .child _ _ i _ _ _ => i

/-- Source app.Key.Incomplete: the key cannot be stored as is (no
backend-assigned positive id). -/
def AppKey.Incomplete (k : AppKey) : Bool := decide (k.EntityId ≤ 0)

/-- Driver ParentKey: the one ancestor level, when present. -/
def AppKey.parentKey : AppKey → Option AppKey
  | .child _ _ _ pk ps pid => some (.root pk ps pid)
  | _ => none

/-- Build a key from kind, shape, id and optional parent. -/
def mkAppKey (kind shape : String) (id : Int) : Option AppKey → AppKey
  | none => .root kind shape id
  | some p => .child kind shape id p.kind p.shape p.EntityId

/-- A cache entry: a positive entity value, or the negative sentinel (the
bool false stored by the source, recognized by a bool type assertion). -/
inductive CEntry (V : Type) where
  | pos (v : V)
  | neg
deriving DecidableEq, Repr

/-- safestore lookup on a string-keyed tier. -/
def sfGet {V : Type} (l : List (String × CEntry V)) (k : String) : Option (CEntry V) :=
  (l.find? (fun p => p.1 == k)).map (fun p => p.2)

/-- safestore removal of one key. -/
def sfRemove {V : Type} (l : List (String × CEntry V)) (k : String) :
    List (String × CEntry V) :=
  l.filter (fun p => !(p.1 == k))

/-- safestore put (overwrite). -/
def sfPut {V : Type} (l : List (String × CEntry V)) (k : String) (v : CEntry V) :
    List (String × CEntry V) :=
  (k, v) :: sfRemove l k

/-- safestore removal of many keys (sf.Removes / CacheDelete on a tier). -/
def sfRemoves {V : Type} (l : List (String × CEntry V)) (ks : List String) :
    List (String × CEntry V) :=
  ks.foldl sfRemove l

/-- Source EntityCacheKeyPfx. -/
def EntityCacheKeyPfx : String := "db/db::"

/-- The three cache tiers: the request-scoped safestore (ctx.Store()), the
instance (process-wide) cache, and the shared cache, which is none when
dr.SharedCache(false) returns nil (unreachable). TTLs are not modelled (time
is outside the embedding). -/
structure CacheState (V : Type) where
  request : List (String × CEntry V)
  instanceC : List (String × CEntry V)
  shared : Option (List (String × CEntry V))
deriving DecidableEq, Repr

/-- The ambient driver facilities used by the cache orchestrator:
the (already populated) type registry, the driver key encoder, the %v
rendering of keys in messages, GetStructMeta on an entity value, the fresh
zero entity for a TypeMeta (reflect.New), and the per-entity PostLoad fixup
(FromDatastoreKey followed by the PostLoadHook), which is entity-internal
and kept abstract. -/
structure CacheEnv (V : Type) where
  reg : Registry
  encodeKey : AppKey → String
  keyShow : AppKey → String
  tmOfVal : V → Except String TypeMeta
  newOf : TypeMeta → V
  postLoadFix : AppKey → V → Except GoError V

/-- Source CacheResult constants. -/
inductive CacheResult where
  | CacheMiss | CacheNeg | CacheHit
deriving DecidableEq, Repr

/-- Source CachePut: for each key look the TypeMeta up by the key's kind and
shape (a missing registration is the nil-dereference panic, modelled none),
write into the request tier under the raw encoded key when enabled, into the
instance tier under the prefixed key when enabled (or when the shared tier is
enabled but unreachable), and collect shared-tier items under the prefixed
key, writing them at the end. -/
def CachePut {V : Type} (env : CacheEnv V) (st : CacheState V)
    (keys : List AppKey) (dst : List (CEntry V)) : Option (CacheState V) :=
  if keys.length ≠ dst.length then none
  else
    match (keys.zip dst).foldlM
      (fun (acc : CacheState V × List (String × CEntry V)) p =>
        let key := p.1
        let d := p.2
        match GetLoadedStructMetaFromKind env.reg key.kind key.shape with
        | none => none
        | some tm =>
          let enckey := env.encodeKey key
          let enckey2 := EntityCacheKeyPfx ++ enckey
          let st := acc.1
          let st := if tm.UseRequestCache then
              { st with request := sfPut st.request enckey d } else st
          let st := if tm.UseInstanceCache || (tm.UseSharedCache && st.shared.isNone) then
              { st with instanceC := sfPut st.instanceC enckey2 d } else st
          let items := if tm.UseSharedCache && st.shared.isSome then
              acc.2 ++ [(enckey2, d)] else acc.2
          some (st, items)) (st, ([] : List (String × CEntry V))) with
    | none => none
    | some (st, items) =>
      if items.length > 0 && st.shared.isSome then
        some { st with shared := st.shared.map (fun sc =>
          items.foldl (fun sc p => sfPut sc p.1 p.2) sc) }
      else some st

/-- The first pass of CacheGet over the keys (request tier, then instance
tier, then collection of shared-tier candidates with their indices). Returns
the results, the updated dst, the shared-tier candidates, and the returned
error of a failed GetStructMeta (remaining results stay CacheMiss, as in the
source where the result array is pre-initialized). -/
def cacheGetFirstPass {V : Type} (env : CacheEnv V) (st : CacheState V) :
    List (AppKey × V) → Nat →
    (List CacheResult × List V × List (String × Nat) × Option String)
  | [], _ => ([], [], [], none)
  | (key, d) :: rest, i =>
    match env.tmOfVal d with
    | .error e =>
      (List.replicate (rest.length + 1) CacheResult.CacheMiss,
       d :: rest.map (fun p => p.2), [], some e)
    | .ok tm =>
      let enckey := env.encodeKey key
      let enckey2 := EntityCacheKeyPfx ++ enckey
      let hit1 := if tm.UseRequestCache then sfGet st.request enckey else none
      match hit1 with
      | some .neg =>
        let r := cacheGetFirstPass env st rest (i + 1)
        (CacheResult.CacheNeg :: r.1, d :: r.2.1, r.2.2.1, r.2.2.2)
      | some (.pos v) =>
        let r := cacheGetFirstPass env st rest (i + 1)
        (CacheResult.CacheHit :: r.1, v :: r.2.1, r.2.2.1, r.2.2.2)
      | none =>
        let hit2 := if tm.UseInstanceCache || (tm.UseSharedCache && st.shared.isNone)
          then sfGet st.instanceC enckey2 else none
        match hit2 with
        | some .neg =>
          let r := cacheGetFirstPass env st rest (i + 1)
          (CacheResult.CacheNeg :: r.1, d :: r.2.1, r.2.2.1, r.2.2.2)
        | some (.pos v) =>
          let r := cacheGetFirstPass env st rest (i + 1)
          (CacheResult.CacheHit :: r.1, v :: r.2.1, r.2.2.1, r.2.2.2)
        | none =>
          let r := cacheGetFirstPass env st rest (i + 1)
          if tm.UseSharedCache && st.shared.isSome then
            (CacheResult.CacheMiss :: r.1, d :: r.2.1, (enckey2, i) :: r.2.2.1, r.2.2.2)
          else
            (CacheResult.CacheMiss :: r.1, d :: r.2.1, r.2.2.1, r.2.2.2)

/-- Source CacheGet: length check, first pass over the tiers, then the
batched shared-cache lookup resolving the collected candidates by index. -/
def CacheGet {V : Type} (env : CacheEnv V) (st : CacheState V)
    (keys : List AppKey) (dst : List V) :
    (List CacheResult × List V × Option String) :=
  if keys.length == 0 || keys.length != dst.length then
    ([], dst, some "Gets: lengths: 0 or mismatch")
  else
    match cacheGetFirstPass env st (keys.zip dst) 0 with
    | (results, dst1, _, some e) => (results, dst1, some e)
    | (results, dst1, mcck, none) =>
      match st.shared with
      | none => (results, dst1, none)
      | some sc =>
        if mcck.length > 0 then
          let rd := mcck.foldl
            (fun (acc : List CacheResult × List V) (p : String × Nat) =>
              match sfGet sc p.1 with
              | some .neg => (acc.1.set p.2 CacheResult.CacheNeg, acc.2)
              | some (.pos v) => (acc.1.set p.2 CacheResult.CacheHit, acc.2.set p.2 v)
              | none => acc) (results, dst1)
          (rd.1, rd.2, none)
        else (results, dst1, none)

/-- Source CacheDelete: remove the raw encoded keys from the request tier and
from the instance tier (the instance tier stores entries under the prefixed
key, so this removal misses them), and the prefixed keys from the shared tier
when it is reachable. -/
def CacheDelete {V : Type} (env : CacheEnv V) (st : CacheState V)
    (keys : List AppKey) : CacheState V :=
  let mcs0 := keys.map env.encodeKey
  let mcs := keys.map (fun k => EntityCacheKeyPfx ++ env.encodeKey k)
  let st := { st with request := sfRemoves st.request mcs0 }
  let st := { st with instanceC := sfRemoves st.instanceC mcs0 }
  match st.shared with
  | some sc => { st with shared := some (sfRemoves sc mcs) }
  | none => st

/-- The world visible to the top-level operations: the cache tiers, the
backend datastore content, and a ghost counter of DatastoreGet backend
calls. -/
structure World (V : Type) where
  cache : CacheState V
  datastore : List (AppKey × V)
  dsGets : Nat
deriving DecidableEq, Repr

/-- Modelled from the spec: the backend driver contract
DatastoreGet(keys, dst) (the driver itself is an external collaborator):
every found key fills its dst slot; when any key is absent the driver
returns a Multi holding one not-found error per absent key; the ghost
counter records the backend call. -/
def DatastoreGet {V : Type} (w : World V) (keys : List AppKey) (dst : List V) :
    (List V × Option GoError × World V) :=
  let w := { w with dsGets := w.dsGets + 1 }
  let found := keys.map (fun k => (w.datastore.find? (fun p => p.1 == k)).map (fun p => p.2))
  let dst := (found.zip dst).map (fun p => p.1.getD p.2)
  if found.all Option.isSome then (dst, none, w)
  else
    (dst,
     some (.multi (found.map (fun f =>
       match f with
       | some _ => none
       | none => some (.entityNotFound "datastore: no such entity")))),
     w)

/-- Source PostLoad: run the per-entity fixup (FromDatastoreKey and the
PostLoadHook) on every entity, then CachePut them all when useCache; none is
the CachePut panic; returned errors carry the OnErrorf Rich wrapper. -/
def PostLoad {V : Type} (env : CacheEnv V) (w : World V) (useCache : Bool)
    (keys : List AppKey) (dst : List V) :
    Option (Option GoError × List V × World V) :=
  match ((keys.zip dst).foldlM
    (fun (acc : List V) p =>
      match env.postLoadFix p.1 p.2 with
      | .error e => .error e
      | .ok v => .ok (acc ++ [v])) ([] : List V) : Except GoError (List V)) with
  | .error e => some (some (.rich "" (some e)), dst, w)
  | .ok dst1 =>
    if useCache then
      match CachePut env w.cache keys (dst1.map CEntry.pos) with
      | none => none
      | some st => some (none, dst1, { w with cache := st })
    else some (none, dst1, w)

/-- Pair every element with its index. -/
def listWithIdx {α : Type} (l : List α) : List (α × Nat) :=
  l.enum.map (fun p => (p.2, p.1))

/-- The tail of Gets: negative-cache the misses across the enabled tiers,
then surface merr when any entry is set. -/
def getsFinish {V : Type} (env : CacheEnv V) (w : World V) (useCache : Bool)
    (dst : List V) (merr : List (Option GoError))
    (dkeymisses : List AppKey) :
    Option (Option GoError × List (Option V) × World V) :=
  let afterNeg : Option (World V) :=
    if useCache && dkeymisses.length > 0 then
      match CachePut env w.cache dkeymisses
        (List.replicate dkeymisses.length CEntry.neg) with
      | none => none
      | some st => some { w with cache := st }
    else some w
  match afterNeg with
  | none => none
  | some w1 =>
    let err := if merr.any Option.isSome then some (GoError.multi merr) else none
    some (err, dst.map some, w1)

/-- Gets after the nil members of dst are filled: the cache pass (misses of
datastore-disabled types go straight to the negative-cache set), the backend
fetch for the residual keys with per-key disaggregation of the Multi error,
PostLoad of the fetched entities (none of them on a partial error, as in the
source), then the negative-cache write and the merr scan. The ddst aliasing
of dst slots in the source is modelled by carrying slot indices. -/
def getsAfterFill {V : Type} (env : CacheEnv V) (w : World V) (useCache : Bool)
    (keys : List AppKey) (dst : List V) :
    Option (Option GoError × List (Option V) × World V) :=
  let merr0 : List (Option GoError) := List.replicate keys.length none
  let afterCache :
      List (Option GoError) × List V × List (AppKey × Nat) ×
        List AppKey × Option (Option GoError × List (Option V) × World V) :=
    if useCache then
      match CacheGet env w.cache keys dst with
      | (cresults, dst1, _) =>
        match ((listWithIdx cresults).foldlM
          (fun (acc : List (Option GoError) × List (AppKey × Nat) × List AppKey) p =>
            let cr := p.1
            let i := p.2
            match cr with
            | CacheResult.CacheNeg =>
              match keys.get? i with
              | some key =>
                .ok (acc.1.set i (some (.entityNotFound
                  ("<Not_Found_In_Cache> Key: " ++ env.keyShow key))), acc.2.1, acc.2.2)
              | none => .ok acc
            | CacheResult.CacheMiss =>
              match keys.get? i, dst1.get? i with
              | some key, some d =>
                match env.tmOfVal d with
                | .error e => .error (GoError.errorStr e)
                | .ok tm =>
                  if tm.UseDatastore then .ok (acc.1, acc.2.1 ++ [(key, i)], acc.2.2)
                  else .ok (acc.1, acc.2.1, acc.2.2 ++ [key])
              | _, _ => .ok acc
            | CacheResult.CacheHit => .ok acc)
          (merr0, ([] : List (AppKey × Nat)), ([] : List AppKey)) :
            Except GoError (List (Option GoError) × List (AppKey × Nat) × List AppKey)) with
        | .error e => (merr0, dst1, [], [], some (some e, dst1.map some, w))
        | .ok (merr, dk, dkm) => (merr, dst1, dk, dkm, none)
    else (merr0, dst, listWithIdx keys, [], none)
  match afterCache with
  | (_, _, _, _, some earlyRet) => some earlyRet
  | (merr, dst1, dkeysIdx, dkeymisses0, none) =>
    let dkeys := dkeysIdx.map (fun p => p.1)
    if dkeys.length > 0 then
      let ddst := dkeysIdx.filterMap (fun p => dst1.get? p.2)
      match DatastoreGet w dkeys ddst with
      | (vals, errds, w1) =>
        -- write the fetched values back into the aliased dst slots
        let dst2 := (dkeysIdx.zip vals).foldl
          (fun (acc : List V) p => acc.set p.1.2 p.2) dst1
        match errds with
        | none =>
          match PostLoad env w1 useCache dkeys vals with
          | none => none
          | some (some e, _, w2) => some (some e, dst2.map some, w2)
          | some (none, vals1, w2) =>
            let dst3 := (dkeysIdx.zip vals1).foldl
              (fun (acc : List V) p => acc.set p.1.2 p.2) dst2
            getsFinish env w2 useCache dst3 merr dkeymisses0
        | some (.multi errs) =>
          match ((dkeysIdx.zip errs).foldlM
            (fun (acc : List (Option GoError) × List AppKey) p =>
              let dk := p.1.1
              let e := p.2
              match e with
              | none => .ok acc
              | some e1 =>
                if IsNotFoundError (some e1) then
                  let merr1 :=
                    match keys.findIdx? (fun k => k == dk) with
                    | some j => acc.1.set j (some e1)
                    | none => acc.1
                  .ok (merr1, acc.2 ++ [dk])
                else .error (GoError.errorStr "Error from MultiError")) (merr, dkeymisses0) :
              Except GoError (List (Option GoError) × List AppKey)) with
          | .error e => some (some e, dst2.map some, w1)
          | .ok (merr1, dkeymisses1) =>
            -- found entries are not added to the PostLoad set on a partial error
            match PostLoad env w1 useCache [] [] with
            | none => none
            | some (some e, _, w2) => some (some e, dst2.map some, w2)
            | some (none, _, w2) =>
              getsFinish env w2 useCache dst2 merr1 dkeymisses1
        | some e => some (some e, dst2.map some, w1)
    else getsFinish env w useCache dst1 merr dkeymisses0

/-- The body of Gets before the deferred OnErrorf wrap. Returns none on a
panic. dst members may be nil; they are filled with fresh zero entities for
the key's registered type. -/
def GetsCore {V : Type} (env : CacheEnv V) (w : World V) (useCache : Bool)
    (keys : List AppKey) (dst : List (Option V)) :
    Option (Option GoError × List (Option V) × World V) :=
  if keys.length == 0 || keys.length != dst.length then
    some (some (.errorStr "Gets: lengths: 0 or mismatch"), dst, w)
  else
    -- ensure all dst is set to something (non-nil)
    match ((keys.zip dst).foldlM
      (fun (acc : List V) p =>
        match p.2 with
        | some v => some (acc ++ [v])
        | none =>
          match GetLoadedStructMetaFromKind env.reg p.1.kind p.1.shape with
          | some tmk => some (acc ++ [env.newOf tmk])
          | none => none) ([] : List V) : Option (List V)) with
    | none => none
    | some dstF => getsAfterFill env w useCache keys dstF

/-- Source Gets: GetsCore with the deferred OnErrorf wrap applied to a
non-nil returned error. -/
def Gets {V : Type} (env : CacheEnv V) (w : World V) (useCache : Bool)
    (keys : List AppKey) (dst : List (Option V)) :
    Option (Option GoError × List (Option V) × World V) :=
  (GetsCore env w useCache keys dst).map
    (fun r => (r.1.map (fun e => .rich "" (some e)), r.2.1, r.2.2))

/-- Source Deletes: backend delete (modelled from the driver contract as
removal of the keys), then CacheDelete across the tiers; useCache is unused
by the source body. -/
def Deletes {V : Type} (env : CacheEnv V) (w : World V) (useCache : Bool)
    (keys : List AppKey) : Option GoError × World V :=
  let w := { w with datastore := w.datastore.filter (fun p => !(keys.contains p.1)) }
  let w := { w with cache := CacheDelete env w.cache keys }
  (none, w)

/-- An entity value: the fields of a struct value, in declaration order. -/
abbrev Entity := List (String × GVal)

/-- reflect FieldByName on an entity (none models the invalid Value). -/
def lookupField (e : Entity) (n : String) : Option GVal :=
  (e.find? (fun p => p.1 == n)).map (fun p => p.2)

/-- Write a field of an entity in place. -/
def setField (e : Entity) (n : String) (v : GVal) : Entity :=
  e.map (fun p => if p.1 == n then (n, v) else p)

/-- The zero value of a struct type (reflect.New(rt).Elem()). -/
def zeroEntity (rt : GoStructType) : Entity :=
  rt.fields.map (fun f => (f.name, f.typ.zeroInterface))

/-- Source OrmFromIntf over the modelled fragment: REGULAR fields are added
through addToPropList (with the valid field value, so slices expand), and
MARSHAL fields are encoded by the pluggable byte codec (an external
collaborator, passed as codecEnc) and added as a single byte-slice property
with an invalid reflect value. STRUC, EXPANDO and ITREE fields are outside
the fragment and reported as errors; a missing struct field (a reflect
panic in Go) is also reported as an error here. -/
def ormFromIntfStep (codecEnc : GVal → Except String (List Int)) (e : Entity)
    (indexesOnly : Bool) (m : PropertyList) (p : String × DbFieldMeta) :
    Except String PropertyList :=
  match lookupField e p.1 with
  | none => .error ("no field named " ++ p.1)
  | some fv =>
    match p.2.Typ with
    | .REGULAR_FTYPE =>
      -- val = fv.Interface(); never a nil interface for the modelled kinds
      .ok (if fvc .store fv p.2 then
            addToPropList m p.2.DbName fv indexesOnly true false p.2
          else m)
    | .MARSHAL_FTYPE =>
      match codecEnc fv with
      | .error err => .error err
      | .ok bs =>
        .ok (if fvc .store (.gBytes bs) p.2 then
              addToPropList m p.2.DbName (.gBytes bs) indexesOnly false false p.2
            else m)
    | _ => .error ("field type outside the modelled fragment: " ++ p.1)

/-- Source OrmFromIntf as the fold of ormFromIntfStep over the fields. -/
def OrmFromIntf (codecEnc : GVal → Except String (List Int)) (tm : TypeMeta)
    (e : Entity) (indexesOnly : Bool) : Except String PropertyList :=
  tm.DbFields.foldlM (ormFromIntfStep codecEnc e indexesOnly) []

/-- Source ormGetSetVal, viewed through its effect on the field: for a slice
field (other than a byte slice) each matching property is coerced into a
fresh element of the element type (a coercion panic propagates, modelled
none) and appended to a local slice that is returned to the caller but never
written to the field, so the field keeps its current value; for any other
field the first matching property is coerced into the field in place, and
with no matching property the field is untouched. -/
def ormGetSetValField (m : PropertyList) (key : String) (t : GoTyp)
    (cur : GVal) : Option GVal :=
  match t with
  | .slice elemT =>
    if (m.filter (fun p => p.Name == key)).all
        (fun p => (ormSetVal elemT p.Value).isSome) then
      some cur
    else none
  | _ =>
    match m.find? (fun p => p.Name == key) with
    | some p => ormSetVal t p.Value
    | none => some cur

/-- Source OrmToIntf over the modelled fragment (REGULAR fields only; the
other field types are not needed by the claims and yield none). A coercion
panic propagates as none. -/
def ormToIntfStep (m : PropertyList) (e : Entity) (p : String × DbFieldMeta) :
    Option Entity :=
  match p.2.Typ with
  | .REGULAR_FTYPE =>
    match lookupField e p.1 with
    | none => none
    | some cur =>
      (ormGetSetValField m p.2.DbName p.2.ReflectType cur).map (setField e p.1)
  | _ => none

/-- Source OrmToIntf as the fold of ormToIntfStep over the fields. -/
def OrmToIntf (tm : TypeMeta) (m : PropertyList) (e : Entity) : Option Entity :=
  tm.DbFields.foldlM (ormToIntfStep m) e

/-- Ghost state of the backend id allocator: the number of allocation calls
made and the next fresh (positive) id. -/
structure KeyDriverState where
  allocCalls : Nat
  nextId : Int
deriving DecidableEq, Repr

/-- Modelled from the spec: the LowLevelDriver.NewKey contract (the driver is
an external collaborator): build a key for kind, shape, intId and parent,
and if intId < 0 allocate a new intId from the backend datastore (counted by
the ghost allocCalls). -/
def drNewKey (dst : KeyDriverState) (kind shape : String) (intId : Int)
    (pkey : Option AppKey) : AppKey × KeyDriverState :=
  if intId < 0 then
    (mkAppKey kind shape dst.nextId pkey,
     { allocCalls := dst.allocCalls + 1, nextId := dst.nextId + 1 })
  else (mkAppKey kind shape intId pkey, dst)

/-- The shape-field write of dskey: when a shape and a shape field are
configured and the (string) shape field is empty, populate it with the
configured shape (a valid non-string field has a non-empty reflect String()
rendering and is left alone, as is an invalid field). -/
def dskeyShapeAdjust (e : Entity) (shapefield shape : String) : Entity :=
  if shape != "" && shapefield != "" then
    match lookupField e shapefield with
    | some (.gStr s) =>
      if s == "" then setField e shapefield (.gStr shape) else e
    | _ => e
  else e

/-- Source dskey: read the integer key field, populate the shape field from
the configured shape when it is empty, build the key via the driver, and
write a freshly allocated id back into the key field. A non-integer or
missing key field is the reflect panic (none). -/
def dskey (dst : KeyDriverState) (e : Entity)
    (keyfield shapefield kind shape : String) (pkey : Option AppKey) :
    Option (AppKey × Entity × KeyDriverState) :=
  match lookupField e keyfield with
  | some (.gInt t intId) =>
    if t.isSigned then
      let e := dskeyShapeAdjust e shapefield shape
      let kd := drNewKey dst kind shape intId pkey
      let k := kd.1
      let dst1 := kd.2
      let e :=
        if !k.Incomplete && intId ≤ 0 then
          setField e keyfield (.gInt t k.EntityId)
        else e
      some (k, e, dst1)
    else none
  | _ => none

/-- Source DatastoreKey (for entities that do not implement
DatastoreKeyAware; the TypeMeta is the one GetStructMeta resolves for the
entity): resolve the parent key first when a parent key field is configured,
require it to be complete, then resolve the entity's own key with the parent
attached. The returned error carries the deferred OnErrorf Rich wrapper. -/
def DatastoreKey (dst : KeyDriverState) (tm : TypeMeta) (e : Entity) :
    Option (Except GoError AppKey × Entity × KeyDriverState) :=
  if tm.ParentKeyField != "" then
    match dskey dst e tm.ParentKeyField tm.ParentShapeField tm.ParentKind
        tm.ParentShape none with
    | none => none
    | some (pk, e1, dst1) =>
      if pk.Incomplete then
        some (.error (.rich "" (some (.errorStr
          ("DatastoreKey: Error: Parent Key is not in datastore. Id: " ++
            toString pk.EntityId)))), e1, dst1)
      else
        match dskey dst1 e1 tm.KeyField tm.ShapeField tm.Kind tm.Shape (some pk) with
        | none => none
        | some (k, e2, dst2) => some (.ok k, e2, dst2)
  else
    match dskey dst e tm.KeyField tm.ShapeField tm.Kind tm.Shape none with
    | none => none
    | some (k, e2, dst2) => some (.ok k, e2, dst2)

/-! Concrete scenario data used by counterexamples and witnesses. -/

/-- A concrete key encoder for scenarios (the driver EncodeKey). -/
def demoEncKey (k : AppKey) : String :=
  k.kind ++ "/" ++ k.shape ++ "/" ++ toString k.EntityId

/-- A registered entity type: kind U, key field Id, one stored field Name. -/
def demoRtU : GoStructType :=
  { name := "User", structTag := some "keyf=Id,kind=U",
    fields := [{ name := "Id", tag := none, typ := .i64 },
               { name := "Name", tag := some "-", typ := .str }] }

/-- The registry after registering demoRtU. -/
def demoRegU : Registry := (GetStructMetaFromType Registry.empty demoRtU).2

/-- The TypeMeta of demoRtU. -/
def demoTmU : TypeMeta :=
  match buildTypeMeta demoRtU with
  | .ok tm => tm
  | .error _ => NewTypeMeta demoRtU

/-- The key written and re-read in the invalidation scenario. -/
def c1Key : AppKey := .root "U" "" 42

/-- The cache environment of the invalidation and negative-cache scenarios:
entities are opaque strings, the shared tier is unreachable, hooks are
identities. -/
def demoEnv : CacheEnv String :=
  { reg := demoRegU, encodeKey := demoEncKey, keyShow := demoEncKey,
    tmOfVal := fun _ => .ok demoTmU, newOf := fun _ => "zero",
    postLoadFix := fun _ v => .ok v }

/-- Initial world of the invalidation scenario: empty tiers, unreachable
shared cache, the backend holding the pre-write value of c1Key. -/
def c1World0 : World String :=
  { cache := { request := [], instanceC := [], shared := none },
    datastore := [(c1Key, "old")], dsGets := 0 }

/-- The world after the first cached Gets loaded and cached the entity. -/
def c1World1 : World String :=
  match Gets demoEnv c1World0 true [c1Key] [some "dst0"] with
  | some (_, _, w) => w
  | none => c1World0

/-- The world after Deletes removed c1Key from the backend and ran
CacheDelete. -/
def c1World2 : World String := (Deletes demoEnv c1World1 true [c1Key]).2

/-- Two distinct struct types declaring the same (Kind, Shape). -/
def demoRtA : GoStructType :=
  { name := "A", structTag := some "kind=U,keyf=Id",
    fields := [{ name := "Id", tag := none, typ := .i64 }] }

/-- Second type with the same (Kind, Shape) as demoRtA. -/
def demoRtB : GoStructType :=
  { name := "B", structTag := some "kind=U,keyf=Id",
    fields := [{ name := "Id", tag := none, typ := .i64 }] }

/-- The TypeMeta of demoRtA. -/
def demoTmA : TypeMeta :=
  match buildTypeMeta demoRtA with
  | .ok tm => tm
  | .error _ => NewTypeMeta demoRtA

/-- The TypeMeta of demoRtB. -/
def demoTmB : TypeMeta :=
  match buildTypeMeta demoRtB with
  | .ok tm => tm
  | .error _ => NewTypeMeta demoRtB

/-- A struct type with db-tagged fields but no kind in its _struct tag (the
shape of every nested sub-struct type the codec resolves). -/
def demoRtNoKind : GoStructType :=
  { name := "Nested", structTag := none,
    fields := [{ name := "A", tag := some "-", typ := .str }] }

/-- The TypeMeta of demoRtNoKind. -/
def demoTmNoKind : TypeMeta :=
  match buildTypeMeta demoRtNoKind with
  | .ok tm => tm
  | .error _ => NewTypeMeta demoRtNoKind

/-- A registered type with a scalar string field and a slice-of-string
field, both db-tagged with the default store/index policy. -/
def demoRtTags : GoStructType :=
  { name := "Post", structTag := some "keyf=Id,kind=P",
    fields := [{ name := "Id", tag := none, typ := .i64 },
               { name := "Name", tag := some "-", typ := .str },
               { name := "Tags", tag := some "-", typ := .slice .str }] }

/-- The TypeMeta of demoRtTags. -/
def demoTmTags : TypeMeta :=
  match buildTypeMeta demoRtTags with
  | .ok tm => tm
  | .error _ => NewTypeMeta demoRtTags

/-- The entity of the round-trip scenario: both stored fields non-empty. -/
def demoTagsEntity : Entity :=
  [("Id", .gInt .i64 0), ("Name", .gStr "n"), ("Tags", .gSlice .str [.pStr "a"])]

/-- A byte codec that is never consulted by the regular-field scenarios. -/
def demoNoCodec : GVal → Except String (List Int) := fun _ => .error "no codec"

/-- A type with a configured one-level ancestor (pkeyf/pkind). -/
def demoRtPar : GoStructType :=
  { name := "Child", structTag := some "keyf=Id,kind=C,pkeyf=Pid,pkind=P",
    fields := [{ name := "Id", tag := none, typ := .i64 },
               { name := "Pid", tag := none, typ := .i64 }] }

/-- The TypeMeta of demoRtPar. -/
def demoTmPar : TypeMeta :=
  match buildTypeMeta demoRtPar with
  | .ok tm => tm
  | .error _ => NewTypeMeta demoRtPar

/-- An entity whose parent key field holds a strictly negative id. -/
def demoParEntityNeg : Entity := [("Id", .gInt .i64 0), ("Pid", .gInt .i64 (-1))]

/-- An entity whose parent key field holds id zero. -/
def demoParEntityZero : Entity := [("Id", .gInt .i64 0), ("Pid", .gInt .i64 0)]

/-- A 501-byte string (one byte per character). -/
def longDemoStr : String := String.mk (List.replicate 501 'a')

/-- A type with one marshaled field. -/
def demoRtMarshal : GoStructType :=
  { name := "Blobbed", structTag := some "keyf=Id,kind=B",
    fields := [{ name := "Id", tag := none, typ := .i64 },
               { name := "Data", tag := some "dbname=d,ftype=marshal", typ := .bytes }] }

/-- The TypeMeta of demoRtMarshal. -/
def demoTmMarshal : TypeMeta :=
  match buildTypeMeta demoRtMarshal with
  | .ok tm => tm
  | .error _ => NewTypeMeta demoRtMarshal

/-- A property is well-indexed for the purpose of claim C10: if its value is
a byte slice or a string longer than 500 bytes, it is marked NoIndex and was
not emitted on an indexes-only run. -/
def propGood (idxOnly : Bool) (p : Property) : Prop :=
  ((∃ bs, p.Value = .gBytes bs) ∨ (∃ s, p.Value = .gStr s ∧ s.utf8ByteSize > 500)) →
    p.NoIndex = true ∧ idxOnly = false

/-- The cache state produced by the negative-cache write of a single miss of
key k into the empty tiers: the negative sentinel lands in every tier
enabled by the TypeMeta (the instance tier also serves as the fallback of an
enabled but unreachable shared tier). -/
def negCacheAfter {V : Type} (env : CacheEnv V) (k : AppKey) (tm : TypeMeta)
    (sh : Option (List (String × CEntry V))) : CacheState V :=
  { request := if tm.UseRequestCache then [(env.encodeKey k, .neg)] else [],
    instanceC := if tm.UseInstanceCache || (tm.UseSharedCache && sh.isNone) then
        [(EntityCacheKeyPfx ++ env.encodeKey k, .neg)] else [],
    shared := if tm.UseSharedCache && sh.isSome then
        sh.map (fun sc => sfPut sc (EntityCacheKeyPfx ++ env.encodeKey k) .neg)
      else sh }

/-- A scalar kind: one of the signed integer kinds, string or bool. -/
def isScalarKind : GoTyp → Bool
  | .i8 | .i16 | .i32 | .i64 | .str | .boolean => true
  | _ => false

/-- A field kind covered by the general round-trip theorem: a scalar kind or
a slice of a scalar kind (unsigned and byte-slice fields break the round
trip in reflect Value.Uint / Value.Set and are outside). -/
def isRoundTripKind : GoTyp → Bool
  | .slice e => isScalarKind e
  | t => isScalarKind t

/-- The contribution of one REGULAR field to the OrmFromIntf output. -/
def regFieldProps (e : Entity) (pr : String × DbFieldMeta) : PropertyList :=
  match lookupField e pr.1 with
  | some v =>
    if fvc .store v pr.2 then addToPropList [] pr.2.DbName v false true false pr.2
    else []
  | none => []

/-- The value held by a field after the decode pass: a stored scalar field
is reproduced, everything else (unstored fields, and slice fields, whose
rebuilt slice OrmToIntf discards) holds the zero value. -/
def roundTripTarget (pr : String × DbFieldMeta) (v : GVal) : GVal :=
  if isScalarKind pr.2.ReflectType && fvc .store v pr.2 then v
  else pr.2.ReflectType.zeroInterface

/-- The index verdict of the default (not-empty) policy: not-empty, except
that byte slices and strings longer than 500 bytes are never indexed. -/
def defaultIndexCheck (elemT : GoTyp) (v : GVal) : Bool :=
  match v with
  | .gBytes _ => false
  | .gStr s => if s.utf8ByteSize > 500 then false else !(isEmptyVal elemT v)
  | _ => !(isEmptyVal elemT v)

/-!
## Theorems

Helper lemmas first, then one theorem per claim (with witnesses and
counterexamples where required).
-/

/-- The Multi loop of IsNotFoundError is List.all. -/
theorem isNotFoundAll_eq_all (es : List (Option GoError)) :
    isNotFoundAll es = es.all IsNotFoundError := by
  induction es with
  | nil => rfl
  | cons e es ih => simp [isNotFoundAll, List.all_cons, ih]

/-- Characterization of IsNotFoundError (helper for the claim theorem). -/
theorem isNotFoundError_iff (e : Option GoError) :
    IsNotFoundError e = true ↔
      ((∃ msg, e = some (.entityNotFound msg)) ∨
       (∃ es, e = some (.multi es) ∧ es ≠ [] ∧ ∀ x ∈ es, IsNotFoundError x = true)) := by
  rcases e with _ | e
  · simp [IsNotFoundError]
  cases e with
  | entityNotFound m => simp [IsNotFoundError, isNotFoundErrCase]
  | rich a c => simp [IsNotFoundError, isNotFoundErrCase]
  | errorStr m => simp [IsNotFoundError, isNotFoundErrCase]
  | multi es =>
    cases es with
    | nil => simp [IsNotFoundError, isNotFoundErrCase]
    | cons x xs =>
      simp [IsNotFoundError, isNotFoundErrCase, isNotFoundAll_eq_all,
        List.all_eq_true]

/-- C9: IsNotFoundError(err) returns true if and only if err is an
EntityNotFoundError, or err is a non-empty zerror.Multi every element of
which itself satisfies IsNotFoundError; in particular it returns false for
nil, for an empty Multi, and for any Multi containing a nil element or a
non-not-found error. -/
theorem c9_isNotFoundError_spec :
    (∀ e : Option GoError, IsNotFoundError e = true ↔
      ((∃ msg, e = some (.entityNotFound msg)) ∨
       (∃ es, e = some (.multi es) ∧ es ≠ [] ∧ ∀ x ∈ es, IsNotFoundError x = true))) ∧
    IsNotFoundError none = false ∧
    IsNotFoundError (some (.multi [])) = false ∧
    (∀ es : List (Option GoError), none ∈ es →
      IsNotFoundError (some (.multi es)) = false) ∧
    (∀ (es : List (Option GoError)) (x : Option GoError), x ∈ es →
      IsNotFoundError x = false → IsNotFoundError (some (.multi es)) = false) := by
  refine ⟨isNotFoundError_iff, rfl, rfl, ?_, ?_⟩
  · intro es hmem
    cases h : IsNotFoundError (some (.multi es)) with
    | false => rfl
    | true =>
      rcases (isNotFoundError_iff _).mp h with ⟨msg, hmsg⟩ | ⟨es1, heq, _, hall⟩
      · exact absurd hmsg (by simp)
      · have hes : es1 = es := by
          cases heq
          rfl
        have := hall none (hes ▸ hmem)
        simp [IsNotFoundError] at this
  · intro es x hmem hx
    cases h : IsNotFoundError (some (.multi es)) with
    | false => rfl
    | true =>
      rcases (isNotFoundError_iff _).mp h with ⟨msg, hmsg⟩ | ⟨es1, heq, _, hall⟩
      · exact absurd hmsg (by simp)
      · have hes : es1 = es := by
          cases heq
          rfl
        have := hall x (hes ▸ hmem)
        rw [hx] at this
        exact absurd this (by simp)

/-- C7: during decoding, a property value whose numeric value overflows the
destination field's exact width or signedness makes the coercion in
ormSetVal panic (modelled as none): it neither returns an error value nor
silently truncates. Note the stored numeric form is always int64 (the
normalization in addToPropList), so every unsigned destination is a
signedness mismatch and panics in reflect Value.Uint. -/
theorem c7_ormSetVal_overflow_panics (t : GoTyp) (n : Int)
    (hnum : t.isSigned = true ∨ t.isUnsigned = true)
    (hof : t.fits n = false) :
    ormSetVal t (.gInt .i64 n) = none := by
  cases t <;>
    simp_all [ormSetVal, goValInt, goValUint, GoTyp.isSigned, GoTyp.isUnsigned]

/-- Witness for C7 at the concrete input: destination int8, value 300. -/
theorem c7_ormSetVal_overflow_panics_witness :
    (GoTyp.isSigned .i8 = true ∨ GoTyp.isUnsigned .i8 = true) ∧
    GoTyp.fits .i8 300 = false ∧
    ormSetVal .i8 (.gInt .i64 300) = none :=
  ⟨Or.inl (by decide), by decide,
   c7_ormSetVal_overflow_panics .i8 300 (Or.inl (by decide)) (by decide)⟩

set_option maxRecDepth 4096 in
/-- Counterexample to C8 as stated: for a db-tagged string field with no
store= or index= directive, the registry does assign the not-empty checker
to both, and a 501-byte string differs from the type's zero value (its
length is nonzero) and is stored, yet the index check returns false, so the
field is not indexed exactly when its value differs from the zero value. -/
theorem c8_counterexample_long_string :
    (buildFieldMeta { name := "Name", tag := some "-", typ := .str } ["-"]).Store =
      [.NOT_EMPTY_FVC] ∧
    (buildFieldMeta { name := "Name", tag := some "-", typ := .str } ["-"]).Index =
      [.NOT_EMPTY_FVC] ∧
    (GVal.gStr longDemoStr ≠ GoTyp.str.zeroInterface) ∧
    longDemoStr.utf8ByteSize = 501 ∧
    fvc .store (.gStr longDemoStr)
      (buildFieldMeta { name := "Name", tag := some "-", typ := .str } ["-"]) = true ∧
    fvc .index (.gStr longDemoStr)
      (buildFieldMeta { name := "Name", tag := some "-", typ := .str } ["-"]) = false := by
  refine ⟨by decide, by decide, by decide, by decide, by decide, by decide⟩

/-- applyFieldToken leaves Store alone unless the token is a store=
directive. -/
theorem applyFieldToken_Store (fm : DbFieldMeta) (tok : String)
    (h : goHasPfx tok "store=" = false) :
    (applyFieldToken fm tok).Store = fm.Store := by
  simp only [applyFieldToken, h]
  split_ifs <;> simp_all

/-- applyFieldToken leaves Index alone unless the token is an index=
directive. -/
theorem applyFieldToken_Index (fm : DbFieldMeta) (tok : String)
    (h : goHasPfx tok "index=" = false) :
    (applyFieldToken fm tok).Index = fm.Index := by
  simp only [applyFieldToken, h]
  split_ifs <;> simp_all

/-- A token fold without store= directives leaves Store alone. -/
theorem foldl_applyFieldToken_Store (stv : List String) (fm : DbFieldMeta)
    (h : ∀ tok ∈ stv, goHasPfx tok "store=" = false) :
    (stv.foldl applyFieldToken fm).Store = fm.Store := by
  induction stv generalizing fm with
  | nil => rfl
  | cons t ts ih =>
    rw [List.foldl_cons,
      ih _ (fun tok htok => h tok (List.mem_cons_of_mem _ htok)),
      applyFieldToken_Store _ _ (h t (List.mem_cons_self _ _))]

/-- A token fold without index= directives leaves Index alone. -/
theorem foldl_applyFieldToken_Index (stv : List String) (fm : DbFieldMeta)
    (h : ∀ tok ∈ stv, goHasPfx tok "index=" = false) :
    (stv.foldl applyFieldToken fm).Index = fm.Index := by
  induction stv generalizing fm with
  | nil => rfl
  | cons t ts ih =>
    rw [List.foldl_cons,
      ih _ (fun tok htok => h tok (List.mem_cons_of_mem _ htok)),
      applyFieldToken_Index _ _ (h t (List.mem_cons_self _ _))]

/-- C8 amended: a db-tagged field carrying no store= and no index= directive
gets the not-empty checker for both Store and Index; the store check then
holds exactly when the value differs from the type's zero value (for kinds
with a length: when the length is nonzero), and the index check likewise,
except that byte slices and strings longer than 500 bytes are never indexed
regardless of the directives. -/
theorem c8_default_store_index_policy (sf : GoField) (stv : List String)
    (hs : ∀ tok ∈ stv, goHasPfx tok "store=" = false)
    (hi : ∀ tok ∈ stv, goHasPfx tok "index=" = false)
    (v : GVal) :
    (buildFieldMeta sf stv).Store = [.NOT_EMPTY_FVC] ∧
    (buildFieldMeta sf stv).Index = [.NOT_EMPTY_FVC] ∧
    fvc .store v (buildFieldMeta sf stv) =
      !(isEmptyVal (buildFieldMeta sf stv).ReflectType.elemType v) ∧
    fvc .index v (buildFieldMeta sf stv) =
      defaultIndexCheck (buildFieldMeta sf stv).ReflectType.elemType v := by
  have hS0 := foldl_applyFieldToken_Store stv
    { Store := [], Index := [], Typ := .REGULAR_FTYPE,
      FieldName := sf.name, DbName := sf.name, ReflectType := sf.typ } hs
  have hI0 := foldl_applyFieldToken_Index stv
    { Store := [], Index := [], Typ := .REGULAR_FTYPE,
      FieldName := sf.name, DbName := sf.name, ReflectType := sf.typ } hi
  have hfm : (buildFieldMeta sf stv).Store = [.NOT_EMPTY_FVC] ∧
      (buildFieldMeta sf stv).Index = [.NOT_EMPTY_FVC] := by
    unfold buildFieldMeta
    simp [hS0, hI0]
  refine ⟨hfm.1, hfm.2, ?_, ?_⟩
  · rw [fvc, hfm.1]
    simp [fvcCheckOne]
  · cases v with
    | gBytes bs => rfl
    | gStr s =>
      rw [fvc, hfm.2]
      by_cases h5 : s.utf8ByteSize > 500
      · simp [defaultIndexCheck, h5]
      · simp [defaultIndexCheck, h5, fvcCheckOne]
    | gInt t n =>
      rw [fvc, hfm.2]
      simp [defaultIndexCheck, fvcCheckOne]
      all_goals exact fun _ h => GVal.noConfusion h
    | gBool b =>
      rw [fvc, hfm.2]
      simp [defaultIndexCheck, fvcCheckOne]
      all_goals exact fun _ h => GVal.noConfusion h
    | gSlice t es =>
      rw [fvc, hfm.2]
      simp [defaultIndexCheck, fvcCheckOne]
      all_goals exact fun _ h => GVal.noConfusion h

/-- Witness for the amended C8 at a concrete field and value. -/
theorem c8_default_store_index_policy_witness :
    (∀ tok ∈ ["-"], goHasPfx tok "store=" = false) ∧
    (∀ tok ∈ ["-"], goHasPfx tok "index=" = false) ∧
    ((buildFieldMeta { name := "Name", tag := some "-", typ := .str } ["-"]).Store =
        [.NOT_EMPTY_FVC] ∧
     (buildFieldMeta { name := "Name", tag := some "-", typ := .str } ["-"]).Index =
        [.NOT_EMPTY_FVC] ∧
     fvc .store (.gStr "x") (buildFieldMeta { name := "Name", tag := some "-", typ := .str } ["-"]) =
       !(isEmptyVal (buildFieldMeta { name := "Name", tag := some "-", typ := .str } ["-"]).ReflectType.elemType (.gStr "x")) ∧
     fvc .index (.gStr "x") (buildFieldMeta { name := "Name", tag := some "-", typ := .str } ["-"]) =
       defaultIndexCheck
         (buildFieldMeta { name := "Name", tag := some "-", typ := .str } ["-"]).ReflectType.elemType
         (.gStr "x")) :=
  ⟨by decide, by decide,
   c8_default_store_index_policy { name := "Name", tag := some "-", typ := .str } ["-"]
     (by decide) (by decide) (.gStr "x")⟩

/-- Helper: the incomplete-parent branch of dskey, for a parent key field
holding id zero: the driver builds the key without allocating and the state
is unchanged. -/
theorem dskey_zero_id (dst : KeyDriverState) (e : Entity)
    (keyfield shapefield kind shape : String) (t : GoTyp)
    (hfield : lookupField e keyfield = some (.gInt t 0))
    (ht : t.isSigned = true) :
    dskey dst e keyfield shapefield kind shape none =
      some (.root kind shape 0, dskeyShapeAdjust e shapefield shape, dst) := by
  unfold dskey
  rw [hfield]
  simp [ht, drNewKey, mkAppKey, AppKey.Incomplete, AppKey.EntityId]

/-- C5 amended: an entity whose TypeMeta configures a ParentKeyField and
whose parent key field holds id zero makes DatastoreKey fail with the
parent-not-persisted error, with no backend allocation (the driver state is
returned unchanged). A strictly negative parent id instead makes the driver
allocate a fresh id (see the counterexample). -/
theorem c5_datastoreKey_zero_parent_fails (dst : KeyDriverState) (tm : TypeMeta)
    (e : Entity) (t : GoTyp)
    (hpf : (tm.ParentKeyField != "") = true)
    (hfield : lookupField e tm.ParentKeyField = some (.gInt t 0))
    (ht : t.isSigned = true) :
    DatastoreKey dst tm e =
      some (.error (.rich "" (some (.errorStr
        "DatastoreKey: Error: Parent Key is not in datastore. Id: 0"))),
        dskeyShapeAdjust e tm.ParentShapeField tm.ParentShape, dst) := by
  have hds := dskey_zero_id dst e tm.ParentKeyField tm.ParentShapeField
    tm.ParentKind tm.ParentShape t hfield ht
  unfold DatastoreKey
  rw [hpf, if_pos rfl, hds]
  simp [AppKey.Incomplete, AppKey.EntityId]
  rfl

/-- Witness for the amended C5 at the concrete parent-id-zero entity. -/
theorem c5_datastoreKey_zero_parent_fails_witness :
    (demoTmPar.ParentKeyField != "") = true ∧
    lookupField demoParEntityZero demoTmPar.ParentKeyField = some (.gInt .i64 0) ∧
    GoTyp.isSigned .i64 = true ∧
    DatastoreKey { allocCalls := 0, nextId := 7 } demoTmPar demoParEntityZero =
      some (.error (.rich "" (some (.errorStr
        "DatastoreKey: Error: Parent Key is not in datastore. Id: 0"))),
        dskeyShapeAdjust demoParEntityZero demoTmPar.ParentShapeField demoTmPar.ParentShape,
        { allocCalls := 0, nextId := 7 }) :=
  ⟨by decide, by rfl, by decide,
   c5_datastoreKey_zero_parent_fails { allocCalls := 0, nextId := 7 } demoTmPar
     demoParEntityZero .i64 (by decide) (by rfl) (by decide)⟩

/-- Counterexample to C5 as stated: for the concrete entity whose parent key
field holds the non-positive id -1, DatastoreKey does not fail at all (no
ParentNotPersistedError) and performs a backend allocation call (the driver
NewKey contract allocates a fresh id when intId < 0): the resolution
succeeds, the parent key field is overwritten with the allocated id 7, and
the allocation counter is 1. -/
theorem c5_counterexample_negative_parent_id :
    demoTmPar.ParentKeyField = "Pid" ∧
    lookupField demoParEntityNeg "Pid" = some (.gInt .i64 (-1)) ∧
    DatastoreKey { allocCalls := 0, nextId := 7 } demoTmPar demoParEntityNeg =
      some (.ok (.child "C" "" 0 "P" "" 7),
            [("Id", .gInt .i64 0), ("Pid", .gInt .i64 7)],
            { allocCalls := 1, nextId := 8 }) :=
  ⟨rfl, rfl, rfl⟩

/-- Helper: GetStructMetaFromType on a type that is not yet cached, whose
build succeeds with a non-empty Kind whose kind key is unclaimed: parses
(count + 1) and records the type in both maps. -/
theorem getStructMeta_fresh (reg0 : Registry) (rt : GoStructType) (tm : TypeMeta)
    (hb : buildTypeMeta rt = .ok tm)
    (hk : tm.Kind ≠ "")
    (hm : reg0.StructMetas.find? (fun p => p.1 == rt) = none)
    (hkind : reg0.StructMetaKinds.find?
      (fun p => p.1 == getStructMetaKindKey tm.Kind tm.Shape) = none) :
    GetStructMetaFromType reg0 rt =
      (.ok tm,
       { StructMetas := (rt, tm) :: reg0.StructMetas,
         StructMetaKinds :=
           (getStructMetaKindKey tm.Kind tm.Shape, rt) :: reg0.StructMetaKinds,
         parseCount := reg0.parseCount + 1 }) := by
  unfold GetStructMetaFromType
  rw [hm]
  simp only [Option.map_none]
  rw [hb]
  simp only [hk, if_pos, ne_eq, not_false_eq_true, if_true]
  rw [hkind]
  rfl

/-- Helper: GetStructMetaFromType on a cached type returns the cached
TypeMeta and leaves the registry untouched. -/
theorem getStructMeta_cached (reg : Registry) (rt : GoStructType) (tm : TypeMeta)
    (hm : (reg.StructMetas.find? (fun p => p.1 == rt)).map (fun p => p.2) = some tm) :
    GetStructMetaFromType reg rt = (.ok tm, reg) := by
  unfold GetStructMetaFromType
  rw [hm]

/-- C4: for two distinct struct types declaring the same non-empty
(Kind, Shape), the first GetStructMetaFromType call succeeds and registers
the type; the call for the second type returns an error; and after the
failed call both registry maps are unchanged (only the ghost parse counter
moved), so the (Kind, Shape) pair still resolves to the first type's
metadata. -/
theorem c4_duplicate_kind_registration (reg0 : Registry)
    (rt1 rt2 : GoStructType) (tm1 tm2 : TypeMeta)
    (hne : rt1 ≠ rt2)
    (hb1 : buildTypeMeta rt1 = .ok tm1)
    (hb2 : buildTypeMeta rt2 = .ok tm2)
    (hk1 : tm1.Kind ≠ "")
    (hk2 : tm2.Kind ≠ "")
    (hkey : getStructMetaKindKey tm2.Kind tm2.Shape =
      getStructMetaKindKey tm1.Kind tm1.Shape)
    (hm1 : reg0.StructMetas.find? (fun p => p.1 == rt1) = none)
    (hm2 : reg0.StructMetas.find? (fun p => p.1 == rt2) = none)
    (hkind : reg0.StructMetaKinds.find?
      (fun p => p.1 == getStructMetaKindKey tm1.Kind tm1.Shape) = none) :
    GetStructMetaFromType reg0 rt1 =
      (.ok tm1,
       { StructMetas := (rt1, tm1) :: reg0.StructMetas,
         StructMetaKinds :=
           (getStructMetaKindKey tm1.Kind tm1.Shape, rt1) :: reg0.StructMetaKinds,
         parseCount := reg0.parseCount + 1 }) ∧
    GetStructMetaFromType
      { StructMetas := (rt1, tm1) :: reg0.StructMetas,
        StructMetaKinds :=
          (getStructMetaKindKey tm1.Kind tm1.Shape, rt1) :: reg0.StructMetaKinds,
        parseCount := reg0.parseCount + 1 } rt2 =
      (.error ("Error registering for kind: " ++ tm2.Kind ++ ", shape: " ++
         tm2.Shape ++ ". Type already registered."),
       { StructMetas := (rt1, tm1) :: reg0.StructMetas,
         StructMetaKinds :=
           (getStructMetaKindKey tm1.Kind tm1.Shape, rt1) :: reg0.StructMetaKinds,
         parseCount := reg0.parseCount + 2 }) ∧
    GetLoadedStructMetaFromKind
      { StructMetas := (rt1, tm1) :: reg0.StructMetas,
        StructMetaKinds :=
          (getStructMetaKindKey tm1.Kind tm1.Shape, rt1) :: reg0.StructMetaKinds,
        parseCount := reg0.parseCount + 2 } tm1.Kind tm1.Shape = some tm1 := by
  refine ⟨getStructMeta_fresh reg0 rt1 tm1 hb1 hk1 hm1 hkind, ?_, ?_⟩
  · unfold GetStructMetaFromType
    have hfind : (((rt1, tm1) :: reg0.StructMetas).find? (fun p => p.1 == rt2)) = none := by
      rw [List.find?_cons_of_neg, hm2]
      simp [hne]
    rw [hfind]
    simp only [Option.map_none]
    rw [hb2]
    simp only [hk2, ne_eq, not_false_eq_true, if_true]
    have hfind2 : (((getStructMetaKindKey tm1.Kind tm1.Shape, rt1) ::
        reg0.StructMetaKinds).find?
          (fun p => p.1 == getStructMetaKindKey tm2.Kind tm2.Shape)) =
        some (getStructMetaKindKey tm1.Kind tm1.Shape, rt1) := by
      rw [hkey]
      exact List.find?_cons_of_pos _ (by simp)
    rw [hfind2]
    rfl
  · unfold GetLoadedStructMetaFromKind
    rw [List.find?_cons_of_pos _ (by simp)]
    simp only
    rw [List.find?_cons_of_pos _ (by simp)]
    rfl

/-- Witness for C4 at two concrete types both declaring kind U. -/
theorem c4_duplicate_kind_registration_witness :
    demoRtA ≠ demoRtB ∧
    buildTypeMeta demoRtA = .ok demoTmA ∧
    buildTypeMeta demoRtB = .ok demoTmB ∧
    demoTmA.Kind ≠ "" ∧
    demoTmB.Kind ≠ "" ∧
    (GetStructMetaFromType Registry.empty demoRtA =
      (.ok demoTmA,
       { StructMetas := [(demoRtA, demoTmA)],
         StructMetaKinds := [(getStructMetaKindKey demoTmA.Kind demoTmA.Shape, demoRtA)],
         parseCount := 1 }) ∧
     GetStructMetaFromType
       { StructMetas := [(demoRtA, demoTmA)],
         StructMetaKinds := [(getStructMetaKindKey demoTmA.Kind demoTmA.Shape, demoRtA)],
         parseCount := 1 } demoRtB =
      (.error ("Error registering for kind: " ++ demoTmB.Kind ++ ", shape: " ++
         demoTmB.Shape ++ ". Type already registered."),
       { StructMetas := [(demoRtA, demoTmA)],
         StructMetaKinds := [(getStructMetaKindKey demoTmA.Kind demoTmA.Shape, demoRtA)],
         parseCount := 2 }) ∧
     GetLoadedStructMetaFromKind
       { StructMetas := [(demoRtA, demoTmA)],
         StructMetaKinds := [(getStructMetaKindKey demoTmA.Kind demoTmA.Shape, demoRtA)],
         parseCount := 2 } demoTmA.Kind demoTmA.Shape = some demoTmA) :=
  ⟨by decide, by rfl, by rfl, by decide, by decide,
   c4_duplicate_kind_registration Registry.empty demoRtA demoRtB demoTmA demoTmB
     (by decide) (by rfl) (by rfl) (by decide) (by decide) (by rfl)
     (by rfl) (by rfl) (by rfl)⟩

/-- Counterexample to C6 as stated: a struct type whose parsed Kind is empty
(the shape of every nested sub-struct type the codec resolves) is never
cached: the first call leaves StructMetas empty, and the second call parses
the tags again (the ghost parse counter reaches 2). -/
theorem c6_counterexample_kindless_type_reparsed :
    GetStructMetaFromType Registry.empty demoRtNoKind =
      (.ok demoTmNoKind,
       { StructMetas := [], StructMetaKinds := [], parseCount := 1 }) ∧
    GetStructMetaFromType
      { StructMetas := [], StructMetaKinds := [], parseCount := 1 } demoRtNoKind =
      (.ok demoTmNoKind,
       { StructMetas := [], StructMetaKinds := [], parseCount := 2 }) :=
  ⟨rfl, rfl⟩

/-- C6 amended: a type whose parsed Kind is non-empty (and whose (Kind,
Shape) is unclaimed) is parsed exactly once, on the first call, and cached
keyed by the type; every subsequent call returns the cached TypeMeta with
the registry (and its ghost parse counter) untouched. Types with an empty
parsed Kind are re-parsed on every call and never cached (see the
counterexample). -/
theorem c6_kinded_type_parsed_once (reg0 : Registry) (rt : GoStructType)
    (tm : TypeMeta)
    (hb : buildTypeMeta rt = .ok tm)
    (hk : tm.Kind ≠ "")
    (hm : reg0.StructMetas.find? (fun p => p.1 == rt) = none)
    (hkind : reg0.StructMetaKinds.find?
      (fun p => p.1 == getStructMetaKindKey tm.Kind tm.Shape) = none) :
    GetStructMetaFromType reg0 rt =
      (.ok tm,
       { StructMetas := (rt, tm) :: reg0.StructMetas,
         StructMetaKinds :=
           (getStructMetaKindKey tm.Kind tm.Shape, rt) :: reg0.StructMetaKinds,
         parseCount := reg0.parseCount + 1 }) ∧
    GetStructMetaFromType
      { StructMetas := (rt, tm) :: reg0.StructMetas,
        StructMetaKinds :=
          (getStructMetaKindKey tm.Kind tm.Shape, rt) :: reg0.StructMetaKinds,
        parseCount := reg0.parseCount + 1 } rt =
      (.ok tm,
       { StructMetas := (rt, tm) :: reg0.StructMetas,
         StructMetaKinds :=
           (getStructMetaKindKey tm.Kind tm.Shape, rt) :: reg0.StructMetaKinds,
         parseCount := reg0.parseCount + 1 }) := by
  refine ⟨getStructMeta_fresh reg0 rt tm hb hk hm hkind, ?_⟩
  exact getStructMeta_cached _ rt tm
    (by rw [List.find?_cons_of_pos _ (by simp)]; rfl)

/-- Witness for the amended C6 at the concrete kinded type. -/
theorem c6_kinded_type_parsed_once_witness :
    buildTypeMeta demoRtA = .ok demoTmA ∧
    demoTmA.Kind ≠ "" ∧
    (GetStructMetaFromType Registry.empty demoRtA =
      (.ok demoTmA,
       { StructMetas := [(demoRtA, demoTmA)],
         StructMetaKinds := [(getStructMetaKindKey demoTmA.Kind demoTmA.Shape, demoRtA)],
         parseCount := 1 }) ∧
     GetStructMetaFromType
       { StructMetas := [(demoRtA, demoTmA)],
         StructMetaKinds := [(getStructMetaKindKey demoTmA.Kind demoTmA.Shape, demoRtA)],
         parseCount := 1 } demoRtA =
      (.ok demoTmA,
       { StructMetas := [(demoRtA, demoTmA)],
         StructMetaKinds := [(getStructMetaKindKey demoTmA.Kind demoTmA.Shape, demoRtA)],
         parseCount := 1 })) :=
  ⟨by rfl, by decide,
   c6_kinded_type_parsed_once Registry.empty demoRtA demoTmA
     (by rfl) (by decide) (by rfl) (by rfl)⟩

/-- C1 (code bug demonstration): the entity of key c1Key is loaded by a
cached Gets from the backend and cached (request tier under the raw encoded
key, instance tier under the prefixed key); Deletes then removes the key
from the backend and runs CacheDelete — which removes the raw encoded key
from the instance tier, missing the prefixed entry, so the instance tier
still holds the pre-write value; an immediately following cached Gets
returns that stale pre-write value with no error and no backend read
(dsGets and the whole world are unchanged), although the key no longer
exists. -/
theorem c1_stale_instance_cache_after_delete :
    Gets demoEnv c1World0 true [c1Key] [some "dst0"] =
      some (none, [some "old"], c1World1) ∧
    c1World1.cache.request = [(demoEncKey c1Key, .pos "old")] ∧
    c1World1.cache.instanceC = [(EntityCacheKeyPfx ++ demoEncKey c1Key, .pos "old")] ∧
    (Deletes demoEnv c1World1 true [c1Key]).1 = none ∧
    c1World2.datastore = [] ∧
    c1World2.cache.request = [] ∧
    c1World2.cache.instanceC = [(EntityCacheKeyPfx ++ demoEncKey c1Key, .pos "old")] ∧
    Gets demoEnv c1World2 true [c1Key] [some "dst0"] =
      some (none, [some "old"], c1World2) :=
  ⟨rfl, rfl, rfl, rfl, rfl, rfl, rfl, rfl⟩

/-- C2 (code bug demonstration): the entity with a non-empty scalar field
Name and a non-empty slice field Tags encodes into a PropertyList holding
both (the store predicate of Tags is true), but decoding that list into a
fresh zero entity restores only Name: the slice rebuilt by ormGetSetVal is
discarded by OrmToIntf, so Tags comes back empty. -/
theorem c2_roundtrip_drops_slice_fields :
    OrmFromIntf demoNoCodec demoTmTags demoTagsEntity false =
      .ok [{ Name := "Name", Value := .gStr "n", NoIndex := false, Multiple := false },
           { Name := "Tags", Value := .gStr "a", NoIndex := false, Multiple := true }] ∧
    (match demoTmTags.DbFields.find? (fun p => p.1 == "Tags") with
     | some (_, fm) => fvc .store (.gSlice .str [.pStr "a"]) fm
     | none => false) = true ∧
    lookupField demoTagsEntity "Tags" = some (.gSlice .str [.pStr "a"]) ∧
    OrmToIntf demoTmTags
      [{ Name := "Name", Value := .gStr "n", NoIndex := false, Multiple := false },
       { Name := "Tags", Value := .gStr "a", NoIndex := false, Multiple := true }]
      (zeroEntity demoRtTags) =
      some [("Id", .gInt .i64 0), ("Name", .gStr "n"), ("Tags", .gSlice .str [])] :=
  ⟨rfl, rfl, rfl, rfl⟩

/-- The index check rejects byte slices outright. -/
theorem fvc_index_bytes (bs : List Int) (fm : DbFieldMeta) :
    fvc .index (.gBytes bs) fm = false := rfl

/-- The index check rejects strings longer than 500 bytes outright. -/
theorem fvc_index_long_string (s : String) (fm : DbFieldMeta)
    (h : s.utf8ByteSize > 500) : fvc .index (.gStr s) fm = false := by
  simp [fvc, h]

/-- Every property appended by the non-expanding branch of addToPropList is
well-indexed in the sense of propGood. -/
theorem addToPropListLeaf_good (idxOnly : Bool) (m : PropertyList) (name : String)
    (val : GVal) (isSlice : Bool) (fm : DbFieldMeta)
    (hm : ∀ p ∈ m, propGood idxOnly p) :
    ∀ p ∈ addToPropListLeaf m name val idxOnly isSlice fm, propGood idxOnly p := by
  intro p hp
  simp only [addToPropListLeaf] at hp
  by_cases hc : (!idxOnly || fvc .index (normalizeVal val) fm) = true
  · rw [if_pos hc] at hp
    rcases List.mem_append.mp hp with h | h
    · exact hm p h
    · have hq := List.mem_singleton.mp h
      subst hq
      intro hval
      have hfalse : fvc .index (normalizeVal val) fm = false := by
        rcases hval with ⟨bs, hbs⟩ | ⟨s, hs, hlen⟩
        · simp only at hbs
          rw [hbs]
          exact fvc_index_bytes bs fm
        · simp only at hs
          rw [hs]
          exact fvc_index_long_string s fm hlen
      refine ⟨?_, ?_⟩
      · show (!(fvc .index (normalizeVal val) fm)) = true
        rw [hfalse]
        rfl
      · rw [hfalse] at hc
        simpa using hc
  · rw [if_neg hc] at hp
    exact hm p hp

/-- propGood is preserved by a fold of the non-expanding branch over a list
of elements (the slice and byte-slice expansions of addToPropList). -/
theorem foldl_addToPropListLeaf_good {α : Type} (idxOnly : Bool) (name : String)
    (fm : DbFieldMeta) (g : α → GVal) (es : List α) (m : PropertyList)
    (hm : ∀ p ∈ m, propGood idxOnly p) :
    ∀ p ∈ es.foldl (fun acc x => addToPropListLeaf acc name (g x) idxOnly true fm) m,
      propGood idxOnly p := by
  induction es generalizing m with
  | nil => exact hm
  | cons x xs ih =>
    exact fun p hp =>
      ih _ (addToPropListLeaf_good idxOnly m name (g x) true fm hm) p hp

/-- Every property appended by addToPropList is well-indexed. -/
theorem addToPropList_good (idxOnly : Bool) (m : PropertyList) (name : String)
    (val : GVal) (fvValid isSlice : Bool) (fm : DbFieldMeta)
    (hm : ∀ p ∈ m, propGood idxOnly p) :
    ∀ p ∈ addToPropList m name val idxOnly fvValid isSlice fm, propGood idxOnly p := by
  unfold addToPropList
  cases fvValid with
  | false => exact addToPropListLeaf_good idxOnly m name val isSlice fm hm
  | true =>
    cases val with
    | gSlice t es =>
      exact foldl_addToPropListLeaf_good idxOnly name fm PrimVal.toGVal es m hm
    | gBytes bs =>
      exact foldl_addToPropListLeaf_good idxOnly name fm
        (fun b => .gInt .u8 b) bs m hm
    | gInt t n => exact addToPropListLeaf_good idxOnly m name _ isSlice fm hm
    | gStr s => exact addToPropListLeaf_good idxOnly m name _ isSlice fm hm
    | gBool b => exact addToPropListLeaf_good idxOnly m name _ isSlice fm hm

/-- One encoding step preserves well-indexedness of the accumulated list. -/
theorem ormFromIntfStep_good (codecEnc : GVal → Except String (List Int))
    (e : Entity) (idxOnly : Bool) (m m1 : PropertyList)
    (pr : String × DbFieldMeta)
    (hm : ∀ p ∈ m, propGood idxOnly p)
    (h : ormFromIntfStep codecEnc e idxOnly m pr = .ok m1) :
    ∀ p ∈ m1, propGood idxOnly p := by
  unfold ormFromIntfStep at h
  split at h
  · cases h
  · rename_i fv hlf
    split at h
    · cases h
      split
      · exact addToPropList_good idxOnly m pr.2.DbName fv true false pr.2 hm
      · exact hm
    · split at h
      · cases h
      · rename_i bs hcd
        cases h
        split
        · exact addToPropList_good idxOnly m pr.2.DbName (.gBytes bs) false false pr.2 hm
        · exact hm
    · cases h

/-- The encoding fold preserves well-indexedness. -/
theorem ormFromIntf_fold_good (codecEnc : GVal → Except String (List Int))
    (e : Entity) (idxOnly : Bool) :
    ∀ (fl : List (String × DbFieldMeta)) (m0 props : PropertyList),
      (∀ p ∈ m0, propGood idxOnly p) →
      fl.foldlM (ormFromIntfStep codecEnc e idxOnly) m0 = .ok props →
      ∀ p ∈ props, propGood idxOnly p := by
  intro fl
  induction fl with
  | nil =>
    intro m0 props hm h
    cases h
    exact hm
  | cons x xs ih =>
    intro m0 props hm h
    rw [List.foldlM_cons] at h
    cases hstep : ormFromIntfStep codecEnc e idxOnly m0 x with
    | error er => rw [hstep] at h; cases h
    | ok m1 =>
      rw [hstep] at h
      exact ih m1 props (ormFromIntfStep_good codecEnc e idxOnly m0 m1 x hm hstep) h

/-- C10: in every PropertyList produced by OrmFromIntf, a property whose
value is a byte slice, or a string longer than 500 bytes, is never indexed:
the index check returns false for such values regardless of the field's
index directives, so the property is emitted with NoIndex = true, and it is
only emitted at all when indexesOnly was not requested. -/
theorem c10_bytes_and_long_strings_never_indexed
    (codecEnc : GVal → Except String (List Int)) (tm : TypeMeta) (e : Entity)
    (idxOnly : Bool) (props : PropertyList)
    (h : OrmFromIntf codecEnc tm e idxOnly = .ok props) :
    ∀ p ∈ props,
      ((∃ bs, p.Value = .gBytes bs) ∨ (∃ s, p.Value = .gStr s ∧ s.utf8ByteSize > 500)) →
      p.NoIndex = true ∧ idxOnly = false :=
  fun p hp =>
    ormFromIntf_fold_good codecEnc e idxOnly tm.DbFields [] props
      (fun _ hq => absurd hq (List.not_mem_nil _)) h p hp

/-- Witness for C10: a marshaled field emits its encoded byte slice with
NoIndex true on a full (not indexes-only) run. -/
theorem c10_bytes_and_long_strings_never_indexed_witness :
    OrmFromIntf (fun _ => .ok [1, 2, 3]) demoTmMarshal
        [("Id", .gInt .i64 0), ("Data", .gBytes [9])] false =
      .ok [{ Name := "d", Value := .gBytes [1, 2, 3], NoIndex := true, Multiple := false }] ∧
    (({ Name := "d", Value := .gBytes [1, 2, 3], NoIndex := true,
        Multiple := false } : Property).NoIndex = true ∧ (false : Bool) = false) :=
  ⟨rfl,
   c10_bytes_and_long_strings_never_indexed (fun _ => .ok [1, 2, 3]) demoTmMarshal
     [("Id", .gInt .i64 0), ("Data", .gBytes [9])] false
     [{ Name := "d", Value := .gBytes [1, 2, 3], NoIndex := true, Multiple := false }]
     rfl
     { Name := "d", Value := .gBytes [1, 2, 3], NoIndex := true, Multiple := false }
     (by simp)
     (Or.inl ⟨[1, 2, 3], rfl⟩)⟩

set_option maxHeartbeats 2000000 in
/-- C3: for a key absent from the backend whose registered type enables at
least one cache tier (and the datastore), a first cached Gets from empty
tiers returns the per-key not-found error after one backend DatastoreGet
call and writes the negative sentinel into every enabled tier
(negCacheAfter); an immediately following cached Gets returns the not-found
error recorded in the cache and leaves the whole world — in particular the
backend-call counter — unchanged: zero DatastoreGet calls. -/
theorem c3_negative_cache_idempotent {V : Type} (env : CacheEnv V) (k : AppKey)
    (d : V) (tm : TypeMeta) (sh : Option (List (String × CEntry V)))
    (ds : List (AppKey × V)) (g : Nat)
    (htm : env.tmOfVal d = .ok tm)
    (hreg : GetLoadedStructMetaFromKind env.reg k.kind k.shape = some tm)
    (hds : tm.UseDatastore = true)
    (habsent : ds.find? (fun p => p.1 == k) = none)
    (hsh : sh = none ∨ sh = some [])
    (htier : tm.UseRequestCache = true ∨ tm.UseInstanceCache = true ∨
      tm.UseSharedCache = true) :
    Gets env { cache := { request := [], instanceC := [], shared := sh },
               datastore := ds, dsGets := g } true [k] [some d] =
      some (some (.rich "" (some (.multi [some
              (.entityNotFound "datastore: no such entity")]))),
            [some d],
            { cache := negCacheAfter env k tm sh, datastore := ds, dsGets := g + 1 }) ∧
    Gets env { cache := negCacheAfter env k tm sh, datastore := ds, dsGets := g + 1 }
        true [k] [some d] =
      some (some (.rich "" (some (.multi [some (.entityNotFound
              ("<Not_Found_In_Cache> Key: " ++ env.keyShow k))]))),
            [some d],
            { cache := negCacheAfter env k tm sh, datastore := ds, dsGets := g + 1 }) := by
  rcases hsh with rfl | rfl <;>
    cases hrc : tm.UseRequestCache <;> cases hpc : tm.UseInstanceCache <;>
      cases hmc : tm.UseSharedCache <;>
    first
    | (rw [hrc, hpc, hmc] at htier
       rcases htier with h | h | h <;> exact Bool.noConfusion h)
    | (constructor <;>
       simp [Gets, GetsCore, getsAfterFill, getsFinish, CacheGet, cacheGetFirstPass,
         CachePut, PostLoad, DatastoreGet, listWithIdx, sfGet, sfPut, sfRemove,
         negCacheAfter, htm, hreg, hds, habsent, hrc, hpc, hmc,
         IsNotFoundError, isNotFoundErrCase, isNotFoundAll,
         pure, Except.pure, bind, Except.bind, Option.getD, Function.comp])

/-- Witness for C3 at the concrete registered type and key 77 with the
shared tier unreachable. -/
theorem c3_negative_cache_idempotent_witness :
    demoEnv.tmOfVal "d0" = .ok demoTmU ∧
    GetLoadedStructMetaFromKind demoEnv.reg (AppKey.root "U" "" 77).kind
      (AppKey.root "U" "" 77).shape = some demoTmU ∧
    demoTmU.UseDatastore = true ∧
    ([] : List (AppKey × String)).find? (fun p => p.1 == AppKey.root "U" "" 77) = none ∧
    demoTmU.UseRequestCache = true ∧
    (Gets demoEnv
        { cache := { request := [], instanceC := [], shared := none },
          datastore := [], dsGets := 0 }
        true [AppKey.root "U" "" 77] [some "d0"] =
      some (some (.rich "" (some (.multi [some
              (.entityNotFound "datastore: no such entity")]))),
            [some "d0"],
            { cache := negCacheAfter demoEnv (AppKey.root "U" "" 77) demoTmU none,
              datastore := [], dsGets := 0 + 1 }) ∧
     Gets demoEnv
        { cache := negCacheAfter demoEnv (AppKey.root "U" "" 77) demoTmU none,
          datastore := [], dsGets := 0 + 1 } true [AppKey.root "U" "" 77] [some "d0"] =
      some (some (.rich "" (some (.multi [some (.entityNotFound
              ("<Not_Found_In_Cache> Key: " ++ demoEnv.keyShow (AppKey.root "U" "" 77)))]))),
            [some "d0"],
            { cache := negCacheAfter demoEnv (AppKey.root "U" "" 77) demoTmU none,
              datastore := [], dsGets := 0 + 1 })) :=
  ⟨rfl, rfl, rfl, rfl, rfl,
   c3_negative_cache_idempotent demoEnv (AppKey.root "U" "" 77) "d0" demoTmU none
     [] 0 rfl rfl rfl rfl (Or.inl rfl) (Or.inl rfl)⟩

/-!
Supporting development: the general round-trip theorem over scalar fields
(the positive side of the behaviour witnessed under C2).
-/

/-- Writing a present field makes a later read see the new value. -/
theorem lookupField_setField_self (e : Entity) (n : String) (v : GVal)
    (h : (lookupField e n).isSome = true) :
    lookupField (setField e n v) n = some v := by
  induction e with
  | nil => simp [lookupField] at h
  | cons x xs ih =>
    by_cases hx : x.1 = n
    · simp [lookupField, setField, hx]
    · have hxb : (x.1 == n) = false := beq_eq_false_iff_ne.mpr hx
      simp only [lookupField, setField, List.map_cons, List.find?_cons, hxb] at h ⊢
      rw [if_neg (by simp [hx])]
      simp only [List.find?_cons, hxb] at h ⊢
      exact ih h

/-- Writing one field leaves reads of other names unchanged. -/
theorem lookupField_setField_ne (e : Entity) (n m : String) (v : GVal)
    (h : m ≠ n) :
    lookupField (setField e n v) m = lookupField e m := by
  induction e with
  | nil => rfl
  | cons x xs ih =>
    simp only [lookupField, setField, List.map_cons] at ih ⊢
    have hnm : ((n, v).1 == m) = false := beq_eq_false_iff_ne.mpr (fun hh => h hh.symm)
    by_cases hx : (x.1 == n) = true
    · have hxm : (x.1 == m) = false := by
        rw [eq_of_beq hx]
        exact hnm
      rw [if_pos hx, List.find?_cons_of_neg _ (by simp_all),
        List.find?_cons_of_neg _ (by simp_all)]
      exact ih
    · rw [if_neg hx]
      cases hxm : (x.1 == m) with
      | true =>
        rw [List.find?_cons_of_pos _ (by simp_all), List.find?_cons_of_pos _ (by simp_all)]
      | false =>
        rw [List.find?_cons_of_neg _ (by simp_all), List.find?_cons_of_neg _ (by simp_all)]
        exact ih

/-- Decoding a normalized well-typed scalar value into a field of the same
declared kind reproduces the value. -/
theorem ormSetVal_normalized (t : GoTyp) (v : GVal)
    (hk : isScalarKind t = true) (hw : wellTyped t v) :
    ormSetVal t (normalizeVal v) = some v := by
  cases t <;> simp [isScalarKind] at hk <;> cases v <;>
    simp [wellTyped] at hw <;>
    simp_all [normalizeVal, ormSetVal, goValInt, goValString, GoTyp.isSigned,
      GoTyp.isUnsigned, GoTyp.fits]

/-- The primitive-element version of ormSetVal_normalized. -/
theorem ormSetVal_normalized_prim (t : GoTyp) (p : PrimVal)
    (hk : isScalarKind t = true) (hw : wellTypedPrim t p) :
    ormSetVal t (normalizeVal p.toGVal) = some p.toGVal := by
  cases t <;> simp [isScalarKind] at hk <;> cases p <;>
    simp [wellTypedPrim] at hw <;>
    simp_all [normalizeVal, PrimVal.toGVal, ormSetVal, goValInt, goValString,
      GoTyp.isSigned, GoTyp.isUnsigned, GoTyp.fits]

/-- The non-expanding branch of addToPropList only appends. -/
theorem addToPropListLeaf_append (m : PropertyList) (name : String) (val : GVal)
    (idxOnly isSlice : Bool) (fm : DbFieldMeta) :
    addToPropListLeaf m name val idxOnly isSlice fm =
      m ++ addToPropListLeaf [] name val idxOnly isSlice fm := by
  simp only [addToPropListLeaf]
  split_ifs <;> simp

/-- The element fold of addToPropList only appends. -/
theorem foldl_addToPropListLeaf_append {α : Type} (g : α → GVal) (name : String)
    (idxOnly : Bool) (fm : DbFieldMeta) (es : List α) (m : PropertyList) :
    es.foldl (fun acc x => addToPropListLeaf acc name (g x) idxOnly true fm) m =
      m ++ es.foldl (fun acc x => addToPropListLeaf acc name (g x) idxOnly true fm) [] := by
  induction es generalizing m with
  | nil => simp
  | cons x xs ih =>
    rw [List.foldl_cons, List.foldl_cons, ih, addToPropListLeaf_append,
      ih (addToPropListLeaf [] name (g x) idxOnly true fm)]
    simp

/-- addToPropList only appends to the accumulated list. -/
theorem addToPropList_append (m : PropertyList) (name : String) (val : GVal)
    (idxOnly fvValid isSlice : Bool) (fm : DbFieldMeta) :
    addToPropList m name val idxOnly fvValid isSlice fm =
      m ++ addToPropList [] name val idxOnly fvValid isSlice fm := by
  unfold addToPropList
  cases fvValid with
  | false => exact addToPropListLeaf_append m name val idxOnly isSlice fm
  | true =>
    cases val with
    | gSlice t es => exact foldl_addToPropListLeaf_append _ name idxOnly fm es m
    | gBytes bs => exact foldl_addToPropListLeaf_append _ name idxOnly fm bs m
    | gInt t n => exact addToPropListLeaf_append m name _ idxOnly isSlice fm
    | gStr s => exact addToPropListLeaf_append m name _ idxOnly isSlice fm
    | gBool b => exact addToPropListLeaf_append m name _ idxOnly isSlice fm

/-- Every property appended by addToPropList carries the argument name, and
its value is the normalization of the argument value or of one of its
elements. -/
theorem addToPropList_mem (m : PropertyList) (name : String) (val : GVal)
    (idxOnly fvValid isSlice : Bool) (fm : DbFieldMeta) (p : Property)
    (hp : p ∈ addToPropList m name val idxOnly fvValid isSlice fm) :
    p ∈ m ∨ (p.Name = name ∧
      (p.Value = normalizeVal val ∨
       (∃ t es x, val = GVal.gSlice t es ∧ x ∈ es ∧ p.Value = normalizeVal x.toGVal) ∨
       (∃ bs b, val = GVal.gBytes bs ∧ b ∈ bs ∧
          p.Value = normalizeVal (.gInt .u8 b)))) := by
  have leafCase : ∀ (m1 : PropertyList) (v1 : GVal) (is1 : Bool),
      p ∈ addToPropListLeaf m1 name v1 idxOnly is1 fm →
      p ∈ m1 ∨ (p.Name = name ∧ p.Value = normalizeVal v1) := by
    intro m1 v1 is1 hmem
    simp only [addToPropListLeaf] at hmem
    split at hmem
    · rcases List.mem_append.mp hmem with h | h
      · exact Or.inl h
      · have := List.mem_singleton.mp h
        subst this
        exact Or.inr ⟨rfl, rfl⟩
    · exact Or.inl hmem
  have foldCase : ∀ {α : Type} (g : α → GVal) (es : List α) (m1 : PropertyList),
      p ∈ es.foldl (fun acc x => addToPropListLeaf acc name (g x) idxOnly true fm) m1 →
      p ∈ m1 ∨ (p.Name = name ∧ ∃ x ∈ es, p.Value = normalizeVal (g x)) := by
    intro α g es
    induction es with
    | nil => exact fun m1 h => Or.inl h
    | cons x xs ih =>
      intro m1 h
      rcases ih _ h with h1 | ⟨hn, y, hy, hv⟩
      · rcases leafCase m1 (g x) true h1 with h2 | ⟨hn, hv⟩
        · exact Or.inl h2
        · exact Or.inr ⟨hn, x, List.mem_cons_self _ _, hv⟩
      · exact Or.inr ⟨hn, y, List.mem_cons_of_mem _ hy, hv⟩
  unfold addToPropList at hp
  cases fvValid with
  | false =>
    rcases leafCase m val isSlice hp with h | ⟨hn, hv⟩
    · exact Or.inl h
    · exact Or.inr ⟨hn, Or.inl hv⟩
  | true =>
    cases val with
    | gSlice t es =>
      rcases foldCase PrimVal.toGVal es m hp with h | ⟨hn, x, hx, hv⟩
      · exact Or.inl h
      · exact Or.inr ⟨hn, Or.inr (Or.inl ⟨t, es, x, rfl, hx, hv⟩)⟩
    | gBytes bs =>
      rcases foldCase (fun b => GVal.gInt .u8 b) bs m hp with h | ⟨hn, b, hb, hv⟩
      · exact Or.inl h
      · exact Or.inr ⟨hn, Or.inr (Or.inr ⟨bs, b, rfl, hb, hv⟩)⟩
    | gInt t n =>
      rcases leafCase m _ isSlice hp with h | ⟨hn, hv⟩
      · exact Or.inl h
      · exact Or.inr ⟨hn, Or.inl hv⟩
    | gStr s =>
      rcases leafCase m _ isSlice hp with h | ⟨hn, hv⟩
      · exact Or.inl h
      · exact Or.inr ⟨hn, Or.inl hv⟩
    | gBool b =>
      rcases leafCase m _ isSlice hp with h | ⟨hn, hv⟩
      · exact Or.inl h
      · exact Or.inr ⟨hn, Or.inl hv⟩

/-- find? returns the unique matching element. -/
theorem find_unique {α : Type} (p : α → Bool) (a : α) (hpa : p a = true) :
    ∀ (l : List α), a ∈ l → (∀ x ∈ l, p x = true → x = a) →
      l.find? p = some a := by
  intro l
  induction l with
  | nil => exact fun ha _ => absurd ha (List.not_mem_nil _)
  | cons x xs ih =>
    intro ha huniq
    cases hx : p x with
    | true =>
      rw [List.find?_cons_of_pos _ hx]
      exact congrArg some (huniq x (List.mem_cons_self _ _) hx)
    | false =>
      rw [List.find?_cons_of_neg _ (by simp [hx])]
      have ha' : a ∈ xs := by
        rcases List.mem_cons.mp ha with rfl | h
        · rw [hpa] at hx
          exact absurd hx (by simp)
        · exact h
      exact ih ha' (fun y hy hpy => huniq y (List.mem_cons_of_mem _ hy) hpy)

/-- Every property appended by addToPropListLeaf has the argument name and
the normalized argument value. -/
theorem addToPropListLeaf_mem (m : PropertyList) (name : String) (val : GVal)
    (idxOnly isSlice : Bool) (fm : DbFieldMeta) (p : Property)
    (hp : p ∈ addToPropListLeaf m name val idxOnly isSlice fm) :
    p ∈ m ∨ (p.Name = name ∧ p.Value = normalizeVal val) := by
  simp only [addToPropListLeaf] at hp
  split at hp
  · rcases List.mem_append.mp hp with h | h
    · exact Or.inl h
    · have := List.mem_singleton.mp h
      subst this
      exact Or.inr ⟨rfl, rfl⟩
  · exact Or.inl hp

/-- Every property appended by the element fold of addToPropList has the
argument name and the normalized value of one of the elements. -/
theorem foldl_addToPropListLeaf_mem {α : Type} (g : α → GVal) (name : String)
    (idxOnly : Bool) (fm : DbFieldMeta) (p : Property) :
    ∀ (es : List α) (m : PropertyList),
      p ∈ es.foldl (fun acc x => addToPropListLeaf acc name (g x) idxOnly true fm) m →
      p ∈ m ∨ (p.Name = name ∧ ∃ x ∈ es, p.Value = normalizeVal (g x)) := by
  intro es
  induction es with
  | nil => exact fun m h => Or.inl h
  | cons x xs ih =>
    intro m h
    rw [List.foldl_cons] at h
    rcases ih _ h with h1 | ⟨hn, y, hy, hv⟩
    · rcases addToPropListLeaf_mem m name (g x) idxOnly true fm p h1 with h2 | ⟨hn, hv⟩
      · exact Or.inl h2
      · exact Or.inr ⟨hn, x, List.mem_cons_self _ _, hv⟩
    · exact Or.inr ⟨hn, y, List.mem_cons_of_mem _ hy, hv⟩

/-- Every property contributed by a field carries that field's DbName. -/
theorem regFieldProps_names (e : Entity) (q : String × DbFieldMeta) (p : Property)
    (hp : p ∈ regFieldProps e q) : p.Name = q.2.DbName := by
  unfold regFieldProps at hp
  split at hp
  · split at hp
    · rcases addToPropList_mem _ _ _ _ _ _ _ _ hp with h | ⟨hn, _⟩
      · exact absurd h (List.not_mem_nil _)
      · exact hn
    · exact absurd hp (List.not_mem_nil _)
  · exact absurd hp (List.not_mem_nil _)

/-- The contribution of a stored scalar field is a single property holding
the normalized value. -/
theorem regFieldProps_scalar (e : Entity) (pr : String × DbFieldMeta) (v : GVal)
    (hv : lookupField e pr.1 = some v) (hk : isScalarKind pr.2.ReflectType = true)
    (hw : wellTyped pr.2.ReflectType v) (hs : fvc .store v pr.2 = true) :
    regFieldProps e pr = [{ Name := pr.2.DbName
                            Value := normalizeVal v
                            NoIndex := !(fvc .index (normalizeVal v) pr.2)
                            Multiple := false }] := by
  simp only [regFieldProps, hv]
  rw [if_pos hs]
  cases v with
  | gInt t n => simp [addToPropList, addToPropListLeaf]
  | gStr s => simp [addToPropList, addToPropListLeaf]
  | gBool b => simp [addToPropList, addToPropListLeaf]
  | gBytes bs =>
    exfalso
    cases ht : pr.2.ReflectType <;> rw [ht] at hk hw <;>
      simp [isScalarKind] at hk <;> simp [wellTyped] at hw
  | gSlice t es =>
    exfalso
    cases ht : pr.2.ReflectType <;> rw [ht] at hk hw <;>
      simp [isScalarKind] at hk <;> simp [wellTyped] at hw

/-- An unstored field contributes no properties. -/
theorem regFieldProps_empty (e : Entity) (pr : String × DbFieldMeta) (v : GVal)
    (hv : lookupField e pr.1 = some v) (hs : fvc .store v pr.2 = false) :
    regFieldProps e pr = [] := by
  simp [regFieldProps, hv, hs]

/-- Every property contributed by a well-typed scalar-slice field coerces
back into the element type. -/
theorem regFieldProps_slice_coerce (e : Entity) (pr : String × DbFieldMeta)
    (elemT : GoTyp) (v : GVal)
    (ht : pr.2.ReflectType = GoTyp.slice elemT)
    (hk : isScalarKind elemT = true)
    (hv : lookupField e pr.1 = some v) (hw : wellTyped pr.2.ReflectType v)
    (p : Property) (hp : p ∈ regFieldProps e pr) :
    (ormSetVal elemT p.Value).isSome = true := by
  rw [ht] at hw
  simp only [regFieldProps, hv] at hp
  split at hp
  · cases v with
    | gSlice t' es =>
      simp only [wellTyped] at hw
      obtain ⟨heq, hwes⟩ := hw
      rw [heq] at hp
      simp only [addToPropList] at hp
      rcases foldl_addToPropListLeaf_mem PrimVal.toGVal pr.2.DbName false pr.2 p es [] hp
        with h | ⟨_, x, hx, hval⟩
      · exact absurd h (List.not_mem_nil _)
      · rw [hval, ormSetVal_normalized_prim elemT x hk (hwes x hx)]
        rfl
    | gInt t n => simp [wellTyped, GoTyp.isSigned, GoTyp.isUnsigned] at hw
    | gStr s => simp [wellTyped] at hw
    | gBool b => simp [wellTyped] at hw
    | gBytes bs => simp [wellTyped] at hw
  · exact absurd hp (List.not_mem_nil _)

/-- With pairwise-distinct DbNames, any emitted property bearing a field's
DbName comes from that field's own contribution. -/
theorem joinProps_name_mem (e : Entity) (frs : List (String × DbFieldMeta))
    (hnd : (frs.map (fun pr => pr.2.DbName)).Nodup)
    (pr : String × DbFieldMeta) (hpr : pr ∈ frs) (p : Property)
    (hp : p ∈ (frs.map (regFieldProps e)).flatten) (hn : p.Name = pr.2.DbName) :
    p ∈ regFieldProps e pr := by
  rcases List.mem_flatten.mp hp with ⟨l, hl, hpl⟩
  rcases List.mem_map.mp hl with ⟨q, hq, rfl⟩
  have hname := regFieldProps_names e q p hpl
  have hqq : q = pr :=
    List.inj_on_of_nodup_map hnd hq hpr (by rw [← hname, hn])
  rw [← hqq]
  exact hpl

/-- Looking up a stored scalar field's DbName in the full emitted list finds
exactly its own property. -/
theorem joinProps_find_stored (e : Entity) (frs : List (String × DbFieldMeta))
    (hnd : (frs.map (fun pr => pr.2.DbName)).Nodup)
    (pr : String × DbFieldMeta) (hpr : pr ∈ frs) (v : GVal)
    (hv : lookupField e pr.1 = some v)
    (hsc : isScalarKind pr.2.ReflectType = true)
    (hw : wellTyped pr.2.ReflectType v)
    (hs : fvc .store v pr.2 = true) :
    ((frs.map (regFieldProps e)).flatten).find? (fun p => p.Name == pr.2.DbName) =
      some { Name := pr.2.DbName
             Value := normalizeVal v
             NoIndex := !(fvc .index (normalizeVal v) pr.2)
             Multiple := false } := by
  have hreg1 := regFieldProps_scalar e pr v hv hsc hw hs
  apply find_unique
  · simp
  · apply List.mem_flatten.mpr
    refine ⟨regFieldProps e pr, List.mem_map_of_mem _ hpr, ?_⟩
    rw [hreg1]
    exact List.mem_singleton_self _
  · intro x hx hpx
    have hxm : x ∈ regFieldProps e pr :=
      joinProps_name_mem e frs hnd pr hpr x hx (by simpa using hpx)
    rw [hreg1] at hxm
    exact List.mem_singleton.mp hxm

/-- Looking up an unstored field's DbName in the full emitted list finds
nothing. -/
theorem joinProps_find_unstored (e : Entity) (frs : List (String × DbFieldMeta))
    (hnd : (frs.map (fun pr => pr.2.DbName)).Nodup)
    (pr : String × DbFieldMeta) (hpr : pr ∈ frs) (v : GVal)
    (hv : lookupField e pr.1 = some v)
    (hs : fvc .store v pr.2 = false) :
    ((frs.map (regFieldProps e)).flatten).find? (fun p => p.Name == pr.2.DbName) =
      none := by
  apply List.find?_eq_none.mpr
  intro x hx hpx
  have hxm : x ∈ regFieldProps e pr :=
    joinProps_name_mem e frs hnd pr hpr x hx (by simpa using hpx)
  rw [regFieldProps_empty e pr v hv hs] at hxm
  exact absurd hxm (List.not_mem_nil _)

/-- On scalar kinds, ormGetSetValField coerces the first matching property
into the field (or leaves the field untouched with no match). -/
theorem ormGetSetValField_scalar (m : PropertyList) (key : String) (t : GoTyp)
    (cur : GVal) (ht : isScalarKind t = true) :
    ormGetSetValField m key t cur =
      match m.find? (fun p => p.Name == key) with
      | some p => ormSetVal t p.Value
      | none => some cur := by
  cases t <;> simp [isScalarKind] at ht <;> rfl

/-- The decode step for each round-trippable field: a stored scalar field
receives its original value, every other field keeps its current value. -/
theorem decode_field_value (e : Entity) (frs : List (String × DbFieldMeta))
    (hnd : (frs.map (fun pr => pr.2.DbName)).Nodup)
    (pr : String × DbFieldMeta) (hpr : pr ∈ frs) (v : GVal)
    (hv : lookupField e pr.1 = some v)
    (hk : isRoundTripKind pr.2.ReflectType = true)
    (hw : wellTyped pr.2.ReflectType v) (cur : GVal) :
    ormGetSetValField ((frs.map (regFieldProps e)).flatten) pr.2.DbName
        pr.2.ReflectType cur =
      some (if isScalarKind pr.2.ReflectType && fvc .store v pr.2 then v
            else cur) := by
  by_cases hsc : isScalarKind pr.2.ReflectType = true
  · rw [ormGetSetValField_scalar _ _ _ _ hsc, hsc, Bool.true_and]
    by_cases hs : fvc .store v pr.2 = true
    · rw [joinProps_find_stored e frs hnd pr hpr v hv hsc hw hs, if_pos hs]
      exact ormSetVal_normalized pr.2.ReflectType v hsc hw
    · rw [joinProps_find_unstored e frs hnd pr hpr v hv (by simpa using hs),
        if_neg hs]
  · obtain ⟨elemT, ht, hke⟩ :
        ∃ elemT, pr.2.ReflectType = GoTyp.slice elemT ∧ isScalarKind elemT = true := by
      cases h : pr.2.ReflectType
      case slice eT =>
        rw [h] at hk
        exact ⟨eT, rfl, by simpa [isRoundTripKind] using hk⟩
      all_goals rw [h] at hk hsc
      all_goals simp [isRoundTripKind, isScalarKind] at hk hsc
    have hall : (((frs.map (regFieldProps e)).flatten).filter
        (fun p => p.Name == pr.2.DbName)).all
        (fun p => (ormSetVal elemT p.Value).isSome) = true := by
      apply List.all_eq_true.mpr
      intro p hp
      have hmem := (List.mem_filter.mp hp).1
      have hname : p.Name = pr.2.DbName := by simpa using (List.mem_filter.mp hp).2
      have hinpr := joinProps_name_mem e frs hnd pr hpr p hmem hname
      exact regFieldProps_slice_coerce e pr elemT v ht hke hv hw p hinpr
    rw [ht]
    simp only [ormGetSetValField]
    rw [if_pos hall, if_neg (by simp [isScalarKind])]

/-- Over present REGULAR fields OrmFromIntf succeeds, producing the
concatenation of the per-field contributions. -/
theorem ormFromIntf_encode_aux (codecEnc : GVal → Except String (List Int))
    (e : Entity) :
    ∀ (frs : List (String × DbFieldMeta)) (m : PropertyList),
      (∀ pr ∈ frs, pr.2.Typ = FieldType.REGULAR_FTYPE) →
      (∀ pr ∈ frs, (lookupField e pr.1).isSome = true) →
      frs.foldlM (ormFromIntfStep codecEnc e false) m =
        .ok (m ++ (frs.map (regFieldProps e)).flatten) := by
  intro frs
  induction frs with
  | nil =>
    intro m _ _
    simp [pure, Except.pure]
  | cons pr rest ih =>
    intro m hreg hpres
    obtain ⟨v, hv⟩ := Option.isSome_iff_exists.mp (hpres pr (List.mem_cons_self _ _))
    have hstep : ormFromIntfStep codecEnc e false m pr =
        .ok (m ++ regFieldProps e pr) := by
      simp only [ormFromIntfStep, hv, hreg pr (List.mem_cons_self _ _), regFieldProps]
      by_cases hs : fvc .store v pr.2 = true
      · rw [if_pos hs, if_pos hs, addToPropList_append]
      · rw [if_neg hs, if_neg hs, List.append_nil]
    rw [List.foldlM_cons, hstep]
    show rest.foldlM (ormFromIntfStep codecEnc e false) (m ++ regFieldProps e pr) = _
    rw [ih (m ++ regFieldProps e pr)
      (fun q hq => hreg q (List.mem_cons_of_mem _ hq))
      (fun q hq => hpres q (List.mem_cons_of_mem _ hq))]
    simp

/-- The decode fold over REGULAR fields with pairwise-distinct field names:
it succeeds, leaves unlisted fields alone, and gives each listed field the
value its own decode step computes from its pre-decode value. -/
theorem ormToIntf_decode_aux (m : PropertyList) :
    ∀ (frs : List (String × DbFieldMeta)) (ecur : Entity),
      (∀ pr ∈ frs, pr.2.Typ = FieldType.REGULAR_FTYPE) →
      (frs.map Prod.fst).Nodup →
      (∀ pr ∈ frs, (lookupField ecur pr.1).isSome = true) →
      (∀ pr ∈ frs, ∀ cur,
        (ormGetSetValField m pr.2.DbName pr.2.ReflectType cur).isSome = true) →
      ∃ e1, frs.foldlM (ormToIntfStep m) ecur = some e1 ∧
        (∀ n, n ∉ frs.map Prod.fst → lookupField e1 n = lookupField ecur n) ∧
        (∀ pr ∈ frs, ∀ cur, lookupField ecur pr.1 = some cur →
          lookupField e1 pr.1 =
            ormGetSetValField m pr.2.DbName pr.2.ReflectType cur) := by
  intro frs
  induction frs with
  | nil =>
    intro ecur _ _ _ _
    exact ⟨ecur, by simp, fun n _ => rfl,
      fun pr h => absurd h (List.not_mem_nil _)⟩
  | cons pr rest ih =>
    intro ecur hreg hnd hps hok
    obtain ⟨cur, hcur⟩ := Option.isSome_iff_exists.mp (hps pr (List.mem_cons_self _ _))
    obtain ⟨w, hw⟩ := Option.isSome_iff_exists.mp (hok pr (List.mem_cons_self _ _) cur)
    have hstep : ormToIntfStep m ecur pr = some (setField ecur pr.1 w) := by
      simp [ormToIntfStep, hreg pr (List.mem_cons_self _ _), hcur, hw]
    have hnotin : pr.1 ∉ rest.map Prod.fst := (List.nodup_cons.mp hnd).1
    have hndr : (rest.map Prod.fst).Nodup := (List.nodup_cons.mp hnd).2
    have hps' : ∀ q ∈ rest, (lookupField (setField ecur pr.1 w) q.1).isSome = true := by
      intro q hq
      have hne : q.1 ≠ pr.1 := by
        intro h
        exact hnotin (by rw [← h]; exact List.mem_map_of_mem Prod.fst hq)
      rw [lookupField_setField_ne _ _ _ _ hne]
      exact hps q (List.mem_cons_of_mem _ hq)
    obtain ⟨e1, hfold, hpre, hval⟩ := ih (setField ecur pr.1 w)
      (fun q hq => hreg q (List.mem_cons_of_mem _ hq)) hndr hps'
      (fun q hq => hok q (List.mem_cons_of_mem _ hq))
    refine ⟨e1, ?_, ?_, ?_⟩
    · rw [List.foldlM_cons, hstep]
      exact hfold
    · intro n hn
      have hn1 : n ∉ rest.map Prod.fst := fun h => hn (List.mem_cons_of_mem _ h)
      have hn2 : n ≠ pr.1 := by
        intro h
        exact hn (by rw [h]; exact List.mem_cons_self _ _)
      rw [hpre n hn1, lookupField_setField_ne _ _ _ _ hn2]
    · intro q hq cur' hcur'
      rcases List.mem_cons.mp hq with rfl | hq'
      · rw [hcur] at hcur'
        injection hcur' with hcc
        subst hcc
        rw [hpre q.1 hnotin,
          lookupField_setField_self _ _ _ (by rw [hcur]; rfl), hw]
      · have hne : q.1 ≠ pr.1 := by
          intro h
          exact hnotin (by rw [← h]; exact List.mem_map_of_mem Prod.fst hq')
        rw [← lookupField_setField_ne ecur pr.1 q.1 w hne] at hcur'
        exact hval q hq' cur' hcur'

/-- General round trip over REGULAR fields of scalar or scalar-slice kind
with distinct field names and DbNames: OrmFromIntf then OrmToIntf into a
zero entity succeeds, stored scalar fields come back with their original
value, and every other field (unstored fields, and slice fields, whose
rebuilt slice OrmToIntf discards) holds its zero value. -/
theorem ormRoundtrip_scalar_fields (codecEnc : GVal → Except String (List Int))
    (tm : TypeMeta) (e e0 : Entity)
    (hreg : ∀ pr ∈ tm.DbFields, pr.2.Typ = FieldType.REGULAR_FTYPE)
    (hkind : ∀ pr ∈ tm.DbFields, isRoundTripKind pr.2.ReflectType = true)
    (hwt : ∀ pr ∈ tm.DbFields, ∃ v, lookupField e pr.1 = some v ∧
      wellTyped pr.2.ReflectType v)
    (hzero : ∀ pr ∈ tm.DbFields,
      lookupField e0 pr.1 = some pr.2.ReflectType.zeroInterface)
    (hndDb : (tm.DbFields.map (fun pr => pr.2.DbName)).Nodup)
    (hndF : (tm.DbFields.map Prod.fst).Nodup) :
    ∃ props e1, OrmFromIntf codecEnc tm e false = .ok props ∧
      OrmToIntf tm props e0 = some e1 ∧
      ∀ pr ∈ tm.DbFields,
        lookupField e1 pr.1 = (lookupField e pr.1).map (roundTripTarget pr) := by
  have henc := ormFromIntf_encode_aux codecEnc e tm.DbFields [] hreg
    (fun pr hp => by obtain ⟨v, hv, _⟩ := hwt pr hp; rw [hv]; rfl)
  have hok : ∀ pr ∈ tm.DbFields, ∀ cur,
      (ormGetSetValField ((tm.DbFields.map (regFieldProps e)).flatten) pr.2.DbName
        pr.2.ReflectType cur).isSome = true := by
    intro pr hp cur
    obtain ⟨v, hv, hw⟩ := hwt pr hp
    rw [decode_field_value e tm.DbFields hndDb pr hp v hv (hkind pr hp) hw cur]
    rfl
  obtain ⟨e1, hfold, hpre, hval⟩ :=
    ormToIntf_decode_aux ((tm.DbFields.map (regFieldProps e)).flatten) tm.DbFields e0
      hreg hndF (fun pr hp => by rw [hzero pr hp]; rfl) hok
  refine ⟨(tm.DbFields.map (regFieldProps e)).flatten, e1, by simpa using henc,
    hfold, ?_⟩
  intro pr hp
  obtain ⟨v, hv, hw⟩ := hwt pr hp
  rw [hv, Option.map_some', hval pr hp _ (hzero pr hp),
    decode_field_value e tm.DbFields hndDb pr hp v hv (hkind pr hp) hw _]
  rfl

/-- Closed instantiation of the general round trip at the demoRtTags type:
all hypotheses hold, the stored string field comes back, and the slice
field collapses to its zero value. -/
theorem ormRoundtrip_scalar_fields_example :
    ∃ props e1,
      OrmFromIntf demoNoCodec demoTmTags demoTagsEntity false = .ok props ∧
      OrmToIntf demoTmTags props (zeroEntity demoRtTags) = some e1 ∧
      ∀ pr ∈ demoTmTags.DbFields,
        lookupField e1 pr.1 =
          (lookupField demoTagsEntity pr.1).map (roundTripTarget pr) := by
  apply ormRoundtrip_scalar_fields
  · decide
  · decide
  · intro pr hp
    rcases List.mem_cons.mp hp with h | hp1
    · subst h
      exact ⟨.gStr "n", rfl, trivial⟩
    rcases List.mem_cons.mp hp1 with h | hp2
    · subst h
      exact ⟨.gSlice .str [.pStr "a"], rfl, rfl,
        by intro v hv; rw [List.mem_singleton.mp hv]; trivial⟩
    · exact absurd hp2 (List.not_mem_nil _)
  · decide
  · decide
  · decide

end Db
